import Mathlib

/-!
# Maestro: the playback daemon of `server.c`

A shallow embedding of the server side of the music player daemon
(`src/server.c`) and theorems about its command handling, its time
accounting and its automatic track advance.

Modelling conventions.

* A C string is the list of its bytes before the terminating NUL, one
  `Char` per byte (`CStr`).
* The global variables of `server.c` are the fields of `Globals`; the array
  `playlist` together with `song_count` is a list, `song_count` being its
  length.
* `time_t` and `pid_t` values are integers.  The `double` variables
  (`paused_accum`, `current_duration`, the elapsed time) are rationals: every
  value the program computes in them is a difference or sum of whole seconds,
  or a probed duration less one half, all of which `double` arithmetic
  computes exactly for magnitudes below `2^52`.
* What the operating system answers (`time`, `fork`, `kill`, the duration
  probe) is an input, collected in `World`.
* What the program does to the outside (signals, reaping, spawning, lines
  sent to the client, rewriting the playlist file) is returned as a list of
  `Sys` events next to the new globals.
* `main` forks one child process per accepted connection and the child runs
  `handle_client`; every process has its own copy of the globals (`Daemon`),
  and a session is the sequence of passes its process makes through the loop
  (`run_passes`).
* The operations C leaves undefined for some operands, `%` and indexing of
  `playlist`, are total in the model (`Int.tmod`, `List.getD`); the functions
  named `..._accesses` list, site by site as in the source, the operands of every
  such operation a function performs, so that a missing guard shows.
-/

namespace Maestro

/-- Bytes of a C string, terminating NUL excluded. -/
abbrev CStr := List Char

/-- `#define MAX_SONGS 100` -/
def MAX_SONGS : Nat := 100

/-- `#define MAX_LEN 512` -/
def MAX_LEN : Nat := 512

/-- Size of `listbuf` in the `list` branch: `char listbuf[4096]`. -/
def LISTBUF_SIZE : Nat := 4096

/-- The anonymous enum of `state`. -/
inductive PlayState where
  | STATE_STOPPED
  | STATE_PLAYING
  | STATE_PAUSED
deriving DecidableEq, Repr

/-- Signals the server sends to the player process. -/
inductive Signal where
  | SIGKILL
  | SIGSTOP
  | SIGCONT
deriving DecidableEq, Repr

/-- Observable actions of the server on its environment. -/
inductive Sys where
  /-- A call `kill(pid, sig)`. -/
  | kill (pid : Int) (sig : Signal)
  /-- A call `waitpid(pid, NULL, 0)`. -/
  | waitpid (pid : Int)
  /-- A call `fork()`; the child, if there is one, runs `mpg123 -q path`. -/
  | fork_exec (path : CStr)
  /-- A call `send(client_fd, line, strlen(line), 0)`. -/
  | send (line : CStr)
  /-- The status line `STATUS <stname> <elapsed> <duration>`, numbers not yet printed. -/
  | send_status (stname : CStr) (elapsed : ℚ) (duration : ℚ)
  /-- A call `save_playlist()` with these entries in the array. -/
  | save_playlist (entries : List CStr)
deriving DecidableEq

/-- The global variables of `server.c`. -/
structure Globals where
  playlist : List CStr
  player_pid : Int
  current_song : Int
  state : PlayState
  play_start : Int
  paused_since : Int
  paused_accum : ℚ
  current_duration : ℚ
deriving DecidableEq

/-- The global `song_count`. -/
def Globals.song_count (g : Globals) : Int := (g.playlist.length : Int)

/-- Array access `playlist[i]`. -/
def Globals.song (g : Globals) (i : Int) : CStr := g.playlist.getD i.toNat []

/-- Answers of the operating system during one call. -/
structure World where
  /-- Value of `time(NULL)`. -/
  now : Int
  /-- Value `fork()` returns in the server process. -/
  fork_ret : Int
  /-- Value `kill()` returns for `SIGSTOP` and `SIGCONT`. -/
  kill_ret : Int
  /-- Result of `get_duration_seconds`, the external `ffprobe` run. -/
  probe : CStr → ℚ

/-- The initial values of the globals, with the playlist `load_playlist` read. -/
def init (pl : List CStr) : Globals :=
  { playlist := pl, player_pid := -1, current_song := -1,
    state := PlayState.STATE_STOPPED, play_start := 0, paused_since := 0,
    paused_accum := 0, current_duration := 0 }

/-- The libc `difftime` on whole seconds. -/
def difftime (t1 t0 : Int) : ℚ := (t1 : ℚ) - (t0 : ℚ)

/-- The block `if (player_pid > 0) { kill; waitpid; player_pid = -1; }`. -/
def kill_player (g : Globals) : Globals × List Sys :=
  if 0 < g.player_pid then
    ({ g with player_pid := -1 },
      [Sys.kill g.player_pid Signal.SIGKILL, Sys.waitpid g.player_pid])
  else (g, [])

/-- Function `play_song` of `server.c`. -/
def play_song (w : World) (g : Globals) (index : Int) : Globals × List Sys :=
  if index < 0 ∨ index ≥ g.song_count then (g, [])
  else
    let k := kill_player g
    let g2 : Globals :=
      { k.1 with
        current_song := index
        paused_accum := 0
        paused_since := 0
        current_duration := w.probe (g.song index) }
    if w.fork_ret < 0 then (g2, k.2 ++ [Sys.fork_exec (g.song index)])
    else if w.fork_ret = 0 then (g2, k.2 ++ [Sys.fork_exec (g.song index)])
    else
      ({ g2 with
          player_pid := w.fork_ret
          play_start := w.now
          state := PlayState.STATE_PLAYING },
        k.2 ++ [Sys.fork_exec (g.song index)])

/-- Function `pause_song` of `server.c`. -/
def pause_song (w : World) (g : Globals) : Globals × List Sys :=
  if 0 < g.player_pid ∧ g.state = PlayState.STATE_PLAYING then
    if w.kill_ret = 0 then
      ({ g with paused_since := w.now, state := PlayState.STATE_PAUSED },
        [Sys.kill g.player_pid Signal.SIGSTOP])
    else (g, [Sys.kill g.player_pid Signal.SIGSTOP])
  else (g, [])

/-- Function `resume_song` of `server.c`. -/
def resume_song (w : World) (g : Globals) : Globals × List Sys :=
  if 0 < g.player_pid ∧ g.state = PlayState.STATE_PAUSED then
    let g1 : Globals :=
      if g.paused_since ≠ 0 then
        { g with
          paused_accum := g.paused_accum + difftime w.now g.paused_since
          paused_since := 0 }
      else g
    if w.kill_ret = 0 then
      ({ g1 with state := PlayState.STATE_PLAYING },
        [Sys.kill g.player_pid Signal.SIGCONT])
    else (g1, [Sys.kill g.player_pid Signal.SIGCONT])
  else (g, [])

/-- Function `stop_song` of `server.c`. -/
def stop_song (g : Globals) : Globals × List Sys :=
  let k := kill_player g
  ({ k.1 with
      state := PlayState.STATE_STOPPED
      current_song := -1
      paused_since := 0
      paused_accum := 0
      current_duration := 0 },
    k.2)

/-- Function `current_elapsed_seconds` of `server.c`; `now` is `time(NULL)`. -/
def current_elapsed_seconds (g : Globals) (now : Int) : ℚ :=
  match g.state with
  | PlayState.STATE_STOPPED => 0
  | PlayState.STATE_PLAYING =>
    let elapsed := difftime now g.play_start - g.paused_accum
    if elapsed < 0 then 0 else elapsed
  | PlayState.STATE_PAUSED =>
    let elapsed := difftime g.paused_since g.play_start - g.paused_accum
    if elapsed < 0 then 0 else elapsed

/-- Function `next_song` of `server.c`; `%` of C truncates toward zero. -/
def next_song (w : World) (g : Globals) : Globals × List Sys :=
  if g.song_count = 0 then (g, [])
  else play_song w g (Int.tmod (g.current_song + 1) g.song_count)

/-- The libc `strncmp` on C strings: the difference of the first bytes that
differ among the first `n`, the end of a string counting as byte 0. -/
def strncmp : CStr → CStr → Nat → Int
  | _, _, 0 => 0
  | [], [], _ + 1 => 0
  | [], b :: _, _ + 1 => 0 - (b.toNat : Int)
  | a :: _, [], _ + 1 => (a.toNat : Int)
  | a :: as, b :: bs, n + 1 =>
    if a = b then strncmp as bs n else (a.toNat : Int) - (b.toNat : Int)

/-- The `snprintf(dst, cap, ...)` cut: at most `cap - 1` bytes are kept. -/
def snprintf_cut (cap : Nat) (s : CStr) : CStr := s.take (cap - 1)

/-- The text `"%d. %s\n"` for track number `k` and path `path`. -/
def list_line (k : Nat) (path : CStr) : CStr :=
  Nat.toDigits 10 k ++ ['.', ' '] ++ path ++ ['\n']

/-- The libc `strncat(dst, src, sizeof(listbuf) - strlen(dst) - 1)`. -/
def strncat_listbuf (dst src : CStr) : CStr :=
  dst ++ src.take (LISTBUF_SIZE - dst.length - 1)

/-- The `for` loop of the `list` branch from index `i` on, `listbuf` so far in `acc`. -/
def list_loop : Nat → List CStr → CStr → CStr
  | _, [], acc => acc
  | i, p :: rest, acc =>
    list_loop (i + 1) rest (strncat_listbuf acc (snprintf_cut MAX_LEN (list_line (i + 1) p)))

/-- The bytes the `list` branch sends. -/
def list_reply (pl : List CStr) : CStr :=
  if pl.length = 0 then (("No songs.\n".toList).take LISTBUF_SIZE)
  else list_loop 0 pl []

/-- Command words compared by `strncmp` in `handle_client`. -/
def kw_play : CStr := ['p', 'l', 'a', 'y']
/-- The word `pause`. -/
def kw_pause : CStr := ['p', 'a', 'u', 's', 'e']
/-- The word `next`. -/
def kw_next : CStr := ['n', 'e', 'x', 't']
/-- The word `add` followed by one blank. -/
def kw_add : CStr := ['a', 'd', 'd', ' ']
/-- The word `list`. -/
def kw_list : CStr := ['l', 'i', 's', 't']
/-- The word `stop`. -/
def kw_stop : CStr := ['s', 't', 'o', 'p']
/-- The word `exit`. -/
def kw_exit : CStr := ['e', 'x', 'i', 't']

/-- Reply `"ERR No songs in playlist\n"`. -/
def msg_no_songs : CStr := "ERR No songs in playlist\n".toList
/-- Reply `"OK Playing\n"`. -/
def msg_ok_playing : CStr := "OK Playing\n".toList
/-- Reply `"OK Paused\n"`. -/
def msg_ok_paused : CStr := "OK Paused\n".toList
/-- Reply `"OK Next\n"`. -/
def msg_ok_next : CStr := "OK Next\n".toList
/-- Reply `"OK Song added\n"`. -/
def msg_ok_added : CStr := "OK Song added\n".toList
/-- Reply `"ERR Playlist full\n"`. -/
def msg_full : CStr := "ERR Playlist full\n".toList
/-- Reply `"OK Bye\n"`. -/
def msg_bye : CStr := "OK Bye\n".toList
/-- Reply `"ERR Unknown command\n"`. -/
def msg_unknown : CStr := "ERR Unknown command\n".toList

/-- Result of one pass through a part of the session loop. -/
structure Outcome where
  /-- The globals afterwards. -/
  globals : Globals
  /-- What was done to the environment, in order. -/
  trace : List Sys
  /-- Whether the loop was left by `break`. -/
  closed : Bool
deriving DecidableEq

/-- The command dispatch of `handle_client` (the `if`/`else if` chain on
`buf`), `buf` being the received line after trimming. -/
def handle_command (w : World) (g : Globals) (buf : CStr) : Outcome :=
  if strncmp buf kw_play 4 = 0 then
    let r : Globals × List Sys :=
      if g.state = PlayState.STATE_STOPPED then
        if g.song_count > 0 then play_song w g 0
        else (g, [Sys.send msg_no_songs])
      else if g.state = PlayState.STATE_PAUSED then resume_song w g
      else (g, [])
    { globals := r.1, trace := r.2 ++ [Sys.send msg_ok_playing], closed := false }
  else if strncmp buf kw_pause 5 = 0 then
    let r := pause_song w g
    { globals := r.1, trace := r.2 ++ [Sys.send msg_ok_paused], closed := false }
  else if strncmp buf kw_next 4 = 0 then
    let r := next_song w g
    { globals := r.1, trace := r.2 ++ [Sys.send msg_ok_next], closed := false }
  else if strncmp buf kw_add 4 = 0 then
    let song := buf.drop 4
    if g.song_count < (MAX_SONGS : Int) then
      let g1 : Globals := { g with playlist := g.playlist ++ [song] }
      { globals := g1,
        trace := [Sys.save_playlist g1.playlist, Sys.send msg_ok_added],
        closed := false }
    else { globals := g, trace := [Sys.send msg_full], closed := false }
  else if strncmp buf kw_list 4 = 0 then
    { globals := g, trace := [Sys.send (list_reply g.playlist)], closed := false }
  else if strncmp buf kw_stop 4 = 0 ∨ strncmp buf kw_exit 4 = 0 then
    { globals := g, trace := [Sys.send msg_bye], closed := true }
  else { globals := g, trace := [Sys.send msg_unknown], closed := false }

/-- The automatic advance at the end of a loop pass (`if (state ==
STATE_PLAYING && current_duration > 1.0) ...`), `elapsed` being the value
computed for the status line. -/
def auto_advance (w : World) (g : Globals) (elapsed : ℚ) : Globals × List Sys :=
  if g.state = PlayState.STATE_PLAYING ∧ g.current_duration > 1 then
    if elapsed ≥ g.current_duration - 1 / 2 then
      let k := kill_player g
      if k.1.song_count > 0 then
        let r := play_song w k.1 (Int.tmod (k.1.current_song + 1) k.1.song_count)
        (r.1, k.2 ++ r.2)
      else
        let r := stop_song k.1
        (r.1, k.2 ++ r.2)
    else (g, [])
  else (g, [])

/-- The C string in `buf` after `memset(buf, 0, ...)` and a `recv` of the
bytes `raw` into it: at most `MAX_LEN - 1` bytes, up to the first NUL. -/
def recv_buf (raw : List Char) : CStr :=
  (raw.take (MAX_LEN - 1)).takeWhile (fun c => c != Char.ofNat 0)

/-- The trimming `buf[strcspn(buf, "\r\n")] = 0`. -/
def trim_line (buf : CStr) : CStr :=
  buf.takeWhile (fun c => c != '\r' && c != '\n')

/-- The name printed in the status line. -/
def stname (g : Globals) : CStr :=
  if g.state = PlayState.STATE_PLAYING then "PLAYING".toList
  else if g.state = PlayState.STATE_PAUSED then "PAUSED".toList
  else "STOPPED".toList

/-- The lines of the periodic status update: `STATUS`, then `PLAYING` and
`NEXT` when a track is current. -/
def status_trace (g : Globals) (elapsed : ℚ) : List Sys :=
  Sys.send_status (stname g) elapsed g.current_duration ::
    (if 0 ≤ g.current_song ∧ g.current_song < g.song_count then
      Sys.send (snprintf_cut 256 ("PLAYING ".toList ++ g.song g.current_song ++ ['\n'])) ::
        (if g.song_count > 1 then
          [Sys.send (snprintf_cut 256
            ("NEXT ".toList ++ g.song (Int.tmod (g.current_song + 1) g.song_count) ++ ['\n']))]
        else [])
    else [])

/-- Second half of a loop pass: status lines at time `t_status`, then either
`break` when the client is gone (`send_gone`) or the automatic advance. -/
def status_tick (t_status : Int) (send_gone : Bool) (wa : World) (g : Globals) : Outcome :=
  let elapsed := current_elapsed_seconds g t_status
  if send_gone then
    { globals := g, trace := status_trace g elapsed, closed := true }
  else
    let r := auto_advance wa g elapsed
    { globals := r.1, trace := status_trace g elapsed ++ r.2, closed := false }

/-- What `select` and `recv` deliver in one loop pass. -/
inductive Input where
  /-- The one second timeout expired. -/
  | timeout
  /-- The socket was readable and `recv` returned these bytes (none: closed). -/
  | readable (raw : List Char)
  /-- Call `select` failed with `EINTR`. -/
  | eintr
  /-- Call `select` failed otherwise. -/
  | failed

/-- One pass through the `while (1)` loop of `handle_client`: `wc` answers
the command part, `t_status`, `send_gone` and `wa` the status part. -/
def handle_client_pass (inp : Input) (wc : World) (t_status : Int) (send_gone : Bool)
    (wa : World) (g : Globals) : Outcome :=
  match inp with
  | Input.eintr => { globals := g, trace := [], closed := false }
  | Input.failed => { globals := g, trace := [], closed := true }
  | Input.timeout => status_tick t_status send_gone wa g
  | Input.readable raw =>
    if raw.length = 0 then { globals := g, trace := [], closed := true }
    else
      let c := handle_command wc g (trim_line (recv_buf raw))
      if c.closed then c
      else
        let t := status_tick t_status send_gone wa c.globals
        { globals := t.globals, trace := c.trace ++ t.trace, closed := t.closed }

/-- Function `load_playlist` of `server.c`: `file` is `none` when `fopen` fails,
else the lines `fgets` returns one after the other; the loop stops at
`MAX_SONGS` entries and each line is cut at its newline. -/
def load_playlist (file : Option (List CStr)) : List CStr :=
  match file with
  | none => []
  | some lines => (lines.take MAX_SONGS).map (fun l => l.takeWhile (fun c => c != '\n'))

/-- Everything the environment supplies to one pass through the session loop. -/
structure Pass where
  /-- What `select` and `recv` deliver. -/
  inp : Input
  /-- Answers of the system while the command is handled. -/
  wc : World
  /-- Value of `time(NULL)` in `current_elapsed_seconds` for the status line. -/
  t_status : Int
  /-- Whether the status `send` fails with `EPIPE` or `ECONNRESET`. -/
  send_gone : Bool
  /-- Answers of the system during the automatic advance. -/
  wa : World

/-- One pass through the `while (1)` loop of `handle_client` under `p`. -/
def Pass.run (p : Pass) (g : Globals) : Outcome :=
  handle_client_pass p.inp p.wc p.t_status p.send_gone p.wa g

/-- The globals of a session process after the loop of `handle_client` has made
the given passes; the loop ends at the first pass that leaves it by `break`. -/
def run_passes (g : Globals) : List Pass → Globals
  | [] => g
  | p :: rest => if (p.run g).closed then (p.run g).globals else run_passes (p.run g).globals rest

/-- The processes of the daemon: the acceptor running the loop of `main`, and
one child process per accepted connection running `handle_client`. A child
created by `fork` has its own copy of every global variable. -/
structure Daemon where
  /-- Globals of the acceptor process. -/
  acceptor : Globals
  /-- Globals of the session processes, in the order the connections were accepted. -/
  sessions : List Globals

/-- The daemon when `main` enters its accept loop, `load_playlist` done. -/
def startup (file : Option (List CStr)) : Daemon :=
  { acceptor := init (load_playlist file), sessions := [] }

/-- One pass of the accept loop of `main` for an incoming connection;
`fork_ret` is what `fork()` returns in the acceptor. On success the child runs
`handle_client` on its copy of the globals; the acceptor only closes its
descriptor and reaps. -/
def accept_connection (fork_ret : Int) (d : Daemon) : Daemon :=
  if 0 < fork_ret then { d with sessions := d.sessions ++ [d.acceptor] } else d

/-- Session process number `i` makes one pass through its loop. -/
def session_pass (i : Nat) (p : Pass) (d : Daemon) : Daemon :=
  match d.sessions[i]? with
  | none => d
  | some g => { d with sessions := d.sessions.set i (p.run g).globals }

/-- What session process number `i` does to its environment in one pass. -/
def session_trace (i : Nat) (p : Pass) (d : Daemon) : List Sys :=
  match d.sessions[i]? with
  | none => []
  | some g => (p.run g).trace

/-- Session process number `i` makes the given passes one after the other. -/
def session_passes (i : Nat) : List Pass → Daemon → Daemon
  | [], d => d
  | p :: rest, d => session_passes i rest (session_pass i p d)

/-- One evaluation the program makes that the C language leaves undefined for
some operands: a remainder, or a position of the array `playlist`. -/
inductive Access where
  /-- An evaluation of `dividend % divisor`. -/
  | modulo (dividend divisor : Int)
  /-- A playlist index `i` computed, read or written where `count` positions exist. -/
  | index (i count : Int)
deriving DecidableEq

/-- The `for (i = 0; i < song_count; ++i)` reads of `playlist[i]` in
`save_playlist` and in the `list` branch, for `n` entries. -/
def loop_reads (n : Nat) : List Access :=
  (List.range n).map (fun (i : Nat) => Access.index (i : Int) (n : Int))

/-- The writes `playlist[song_count++]` of `load_playlist`: one per line kept,
into the array of `MAX_SONGS` positions. -/
def load_playlist_accesses (file : Option (List CStr)) : List Access :=
  match file with
  | none => []
  | some lines =>
    (List.range (min lines.length MAX_SONGS)).map
      (fun (i : Nat) => Access.index (i : Int) (MAX_SONGS : Int))

/-- The reads of `playlist[index]` in `play_song`, after its bounds test: for the
duration probe, and after `fork` in the child (`execlp`) or the parent (log line). -/
def play_song_accesses (w : World) (g : Globals) (index : Int) : List Access :=
  if index < 0 ∨ index ≥ g.song_count then []
  else
    Access.index index g.song_count ::
      (if w.fork_ret < 0 then [] else [Access.index index g.song_count])

/-- The remainder `next_song` evaluates and the index it passes on, then what
`play_song` does with it. -/
def next_song_accesses (w : World) (g : Globals) : List Access :=
  if g.song_count = 0 then []
  else
    Access.modulo (g.current_song + 1) g.song_count ::
      Access.index (Int.tmod (g.current_song + 1) g.song_count) g.song_count ::
        play_song_accesses w g (Int.tmod (g.current_song + 1) g.song_count)

/-- The remainders and playlist positions of the command dispatch, branch by
branch: `play` calls `play_song(0)`, `next` calls `next_song`, `add` writes
`playlist[song_count]` into the array of `MAX_SONGS` positions and then runs
the loop of `save_playlist`, `list` runs its loop. -/
def handle_command_accesses (w : World) (g : Globals) (buf : CStr) : List Access :=
  if strncmp buf kw_play 4 = 0 then
    if g.state = PlayState.STATE_STOPPED then
      if g.song_count > 0 then play_song_accesses w g 0 else []
    else []
  else if strncmp buf kw_pause 5 = 0 then []
  else if strncmp buf kw_next 4 = 0 then next_song_accesses w g
  else if strncmp buf kw_add 4 = 0 then
    if g.song_count < (MAX_SONGS : Int) then
      Access.index g.song_count (MAX_SONGS : Int) :: loop_reads (g.playlist.length + 1)
    else []
  else if strncmp buf kw_list 4 = 0 then loop_reads g.playlist.length
  else []

/-- The positions and the remainder of the status lines: `playlist[current_song]`
for the `PLAYING` line, `(current_song + 1) % song_count` and `playlist[next]`
for the `NEXT` line. -/
def status_accesses (g : Globals) : List Access :=
  if 0 ≤ g.current_song ∧ g.current_song < g.song_count then
    Access.index g.current_song g.song_count ::
      (if g.song_count > 1 then
        [Access.modulo (g.current_song + 1) g.song_count,
          Access.index (Int.tmod (g.current_song + 1) g.song_count) g.song_count]
      else [])
  else []

/-- The remainder and the index of the automatic advance, then what `play_song`
does with the index. -/
def auto_advance_accesses (w : World) (g : Globals) (elapsed : ℚ) : List Access :=
  if g.state = PlayState.STATE_PLAYING ∧ g.current_duration > 1 then
    if elapsed ≥ g.current_duration - 1 / 2 then
      if (kill_player g).1.song_count > 0 then
        Access.modulo ((kill_player g).1.current_song + 1) (kill_player g).1.song_count ::
          Access.index
            (Int.tmod ((kill_player g).1.current_song + 1) (kill_player g).1.song_count)
            (kill_player g).1.song_count ::
            play_song_accesses w (kill_player g).1
              (Int.tmod ((kill_player g).1.current_song + 1) (kill_player g).1.song_count)
      else []
    else []
  else []

/-- The remainders and positions of the second half of a loop pass. -/
def status_tick_accesses (t_status : Int) (send_gone : Bool) (wa : World) (g : Globals) :
    List Access :=
  status_accesses g ++
    (if send_gone then []
     else auto_advance_accesses wa g (current_elapsed_seconds g t_status))

/-- Every remainder evaluated and every playlist position computed, read or
written during one pass through the loop of `handle_client`, in order. -/
def Pass.accesses (p : Pass) (g : Globals) : List Access :=
  match p.inp with
  | Input.eintr => []
  | Input.failed => []
  | Input.timeout => status_tick_accesses p.t_status p.send_gone p.wa g
  | Input.readable raw =>
    if raw.length = 0 then []
    else
      handle_command_accesses p.wc g (trim_line (recv_buf raw)) ++
        (if (handle_command p.wc g (trim_line (recv_buf raw))).closed then []
         else
          status_tick_accesses p.t_status p.send_gone p.wa
            (handle_command p.wc g (trim_line (recv_buf raw))).globals)

/-! ## Vocabulary of the specification -/

/-- The lines `k. <path>` of a listing as the specification words them, the
first track being number `i + 1`; each line ends with its newline. -/
def listing_lines : Nat → List CStr → List CStr
  | _, [] => []
  | i, p :: rest => list_line (i + 1) p :: listing_lines (i + 1) rest

/-- The complete listing of a playlist: all its lines, in order, nothing cut. -/
def listing (pl : List CStr) : CStr := (listing_lines 0 pl).flatten

/-- Commands of a play and pause session. -/
inductive PPCmd where
  | play
  | pause
deriving DecidableEq, Repr

/-- The line a client sends for a command. -/
def PPCmd.line : PPCmd → CStr
  | PPCmd.play => kw_play
  | PPCmd.pause => kw_pause

/-- One step of a play and pause session: a command handled under the answers
`world`, then the elapsed time read at clock value `t_obs`. -/
structure PPStep where
  cmd : PPCmd
  world : World
  t_obs : Int

/-- The elapsed times read after each step of a play and pause session. -/
def elapsed_readings (g : Globals) : List PPStep → List ℚ
  | [] => []
  | st :: rest =>
    current_elapsed_seconds (handle_command st.world g st.cmd.line).globals st.t_obs ::
      elapsed_readings (handle_command st.world g st.cmd.line).globals rest

/-- The clock never runs backwards during a session that starts at time `t`:
each command is handled no earlier than the previous reading, each reading is
taken no earlier than its command. -/
def clock_monotone (t : Int) : List PPStep → Prop
  | [] => True
  | st :: rest => t ≤ st.world.now ∧ st.world.now ≤ st.t_obs ∧ clock_monotone st.t_obs rest

/-- Every `SIGCONT` of the session is delivered: `kill` returns 0 in each `play` step. -/
def resumes_delivered : List PPStep → Prop
  | [] => True
  | st :: rest => (st.cmd = PPCmd.play → st.world.kill_ret = 0) ∧ resumes_delivered rest

/-- Each reading of a list is at least the one before it, starting from `e`. -/
def nondecreasing_from (e : ℚ) : List ℚ → Prop
  | [] => True
  | x :: rest => e ≤ x ∧ nondecreasing_from x rest

/-- The longest path the command `add <path>` can carry: the receive buffer
holds `MAX_LEN - 1` bytes, four of them the word `add` and its blank. -/
def ADD_PATH_MAX : Nat := MAX_LEN - 1 - 4

/-- A path that a command line can carry unchanged: no carriage return, no line
feed and no NUL byte in it. -/
def clean_path (p : CStr) : Prop :=
  ∀ c ∈ p, c ≠ '\r' ∧ c ≠ '\n' ∧ c ≠ Char.ofNat 0

/-- The condition under which the specification has the track count as finished:
phase playing, a duration above one second, and an elapsed time within half a
second of it. -/
def advance_due (g : Globals) (elapsed : ℚ) : Prop :=
  g.state = PlayState.STATE_PLAYING ∧ g.current_duration > 1 ∧
    elapsed ≥ g.current_duration - 1 / 2

/-- What a play and pause session preserves at clock value `t`: the phase is
not stopped, and a pause in progress began no later than `t`. -/
def session_inv (g : Globals) (t : Int) : Prop :=
  g.state ≠ PlayState.STATE_STOPPED ∧
    (g.state = PlayState.STATE_PAUSED → g.paused_since ≤ t)

/-- An access the C language defines: a remainder by a divisor other than 0, a
position within the positions that exist. -/
def Access.ok : Access → Prop
  | Access.modulo _ d => d ≠ 0
  | Access.index i n => 0 ≤ i ∧ i < n

/-- Every access of a list is defined. -/
def accesses_ok : List Access → Prop
  | [] => True
  | a :: rest => a.ok ∧ accesses_ok rest

/-- The bounds the playlist and the current index are to respect: at most
`MAX_SONGS` entries, and the index either `-1` or a position of the playlist. -/
def index_inv (g : Globals) : Prop :=
  g.playlist.length ≤ MAX_SONGS ∧
    (g.current_song = -1 ∨ (0 ≤ g.current_song ∧ g.current_song < g.song_count))

/-- A player process is owned exactly in the phases playing and paused. -/
def owns_iff_active (g : Globals) : Prop :=
  0 < g.player_pid ↔
    (g.state = PlayState.STATE_PLAYING ∨ g.state = PlayState.STATE_PAUSED)

/-- Every `fork` of a pass yields a child. -/
def spawns_succeed (p : Pass) : Prop := 0 < p.wc.fork_ret ∧ 0 < p.wa.fork_ret

/-! ## Example states and sessions -/

/-- A playing daemon: track 0 of a one-track playlist, player process 4242,
started at time 1000, probed duration 180 seconds. -/
def playing_example : Globals :=
  { playlist := [['a', '.', 'm', 'p', '3']], player_pid := 4242, current_song := 0,
    state := PlayState.STATE_PLAYING, play_start := 1000, paused_since := 0,
    paused_accum := 0, current_duration := 180 }

/-- A daemon with two tracks, the first one current and paused. -/
def two_track_example : Globals :=
  { playlist := [['a', '.', 'm', 'p', '3'], ['b', '.', 'm', 'p', '3']], player_pid := 4242,
    current_song := 0, state := PlayState.STATE_PAUSED, play_start := 1000,
    paused_since := 1010, paused_accum := 0, current_duration := 180 }

/-- Answers of a healthy system at time 1020: the spawn yields process 77, signals
are delivered, every track lasts 200 seconds. -/
def world_example : World :=
  { now := 1020, fork_ret := 77, kill_ret := 0, probe := fun _ => 200 }

/-- A full playlist: 100 tracks, each path 40 bytes long. -/
def full_playlist_example : List CStr := List.replicate 100 (List.replicate 40 'a')

/-- The line `playlist`. -/
def line_playlist : CStr := ['p', 'l', 'a', 'y', 'l', 'i', 's', 't']

/-- The line `hello`. -/
def line_hello : CStr := ['h', 'e', 'l', 'l', 'o']

/-- A daemon that started track 0 at clock value 0 and is playing it. -/
def epoch_example : Globals :=
  { playlist := [['a', '.', 'm', 'p', '3']], player_pid := 4242, current_song := 0,
    state := PlayState.STATE_PLAYING, play_start := 0, paused_since := 0,
    paused_accum := 0, current_duration := 180 }

/-- Answers of a healthy system at clock value 0. -/
def world_at_0 : World :=
  { now := 0, fork_ret := 77, kill_ret := 0, probe := fun _ => 200 }

/-- Answers of a healthy system at clock value 5. -/
def world_at_5 : World :=
  { now := 5, fork_ret := 77, kill_ret := 0, probe := fun _ => 200 }

/-- Answers of a healthy system at clock value 1010. -/
def world_at_1010 : World :=
  { now := 1010, fork_ret := 77, kill_ret := 0, probe := fun _ => 200 }

/-- Answers at clock value 1015 of a system whose `kill` fails. -/
def world_kill_fails : World :=
  { now := 1015, fork_ret := 77, kill_ret := -1, probe := fun _ => 200 }

/-- Answers at clock value 1010 of a system whose `fork` fails. -/
def world_fork_fails : World :=
  { now := 1010, fork_ret := -1, kill_ret := 0, probe := fun _ => 200 }

/-- A session on `playing_example`: `pause` at 1010, then `play` at 1015 whose
`SIGCONT` is not delivered. -/
def failed_resume_session : List PPStep :=
  [{ cmd := PPCmd.pause, world := world_at_1010, t_obs := 1010 },
   { cmd := PPCmd.play, world := world_kill_fails, t_obs := 1015 }]

/-- A session on `playing_example`: `pause` at 1010, then `play` at 1020. -/
def pause_play_session : List PPStep :=
  [{ cmd := PPCmd.pause, world := world_at_1010, t_obs := 1010 },
   { cmd := PPCmd.play, world := world_example, t_obs := 1020 }]

/-- A daemon playing track 0 of two, a track of 10 seconds started at 1000. -/
def short_track_example : Globals :=
  { playlist := [['a', '.', 'm', 'p', '3'], ['b', '.', 'm', 'p', '3']], player_pid := 4242,
    current_song := 0, state := PlayState.STATE_PLAYING, play_start := 1000,
    paused_since := 0, paused_accum := 0, current_duration := 10 }

/-- The bytes `play` and a newline, as received. -/
def raw_play : List Char := ['p', 'l', 'a', 'y', '\n']

/-- The bytes `next` and a newline, as received. -/
def raw_next : List Char := ['n', 'e', 'x', 't', '\n']

/-- The bytes `pause` and a newline, as received. -/
def raw_pause : List Char := ['p', 'a', 'u', 's', 'e', '\n']

/-- The bytes `add b.mp3` and a newline, as received. -/
def raw_add_b : List Char := ['a', 'd', 'd', ' ', 'b', '.', 'm', 'p', '3', '\n']

/-- The bytes `list` and a newline, as received. -/
def raw_list : List Char := ['l', 'i', 's', 't', '\n']

/-- Answers of a healthy system at clock value 1030. -/
def world_at_1030 : World :=
  { now := 1030, fork_ret := 78, kill_ret := 0, probe := fun _ => 200 }

/-- Answers at clock value 1030 of a system whose `fork` fails. -/
def world_fork_fails_1030 : World :=
  { now := 1030, fork_ret := -1, kill_ret := 0, probe := fun _ => 200 }

/-- A pass at 1020 that receives `play` on a healthy system. -/
def pass_play : Pass :=
  { inp := Input.readable raw_play, wc := world_example, t_status := 1020,
    send_gone := false, wa := world_example }

/-- A pass at 1030 that receives `next` while `fork` fails. -/
def pass_next_fork_fails : Pass :=
  { inp := Input.readable raw_next, wc := world_fork_fails_1030, t_status := 1030,
    send_gone := false, wa := world_fork_fails_1030 }

/-- A pass at 1030 that receives `pause` on a healthy system. -/
def pass_pause : Pass :=
  { inp := Input.readable raw_pause, wc := world_at_1030, t_status := 1030,
    send_gone := false, wa := world_at_1030 }

/-- A pass at 1030 that receives `add b.mp3` on a healthy system. -/
def pass_add_b : Pass :=
  { inp := Input.readable raw_add_b, wc := world_at_1030, t_status := 1030,
    send_gone := false, wa := world_at_1030 }

/-- A pass at 1030 that receives `list` on a healthy system. -/
def pass_list : Pass :=
  { inp := Input.readable raw_list, wc := world_at_1030, t_status := 1030,
    send_gone := false, wa := world_at_1030 }

/-- A pass at 1030 in which `select` times out: a status tick. -/
def pass_tick : Pass :=
  { inp := Input.timeout, wc := world_at_1030, t_status := 1030,
    send_gone := false, wa := world_at_1030 }

/-- The daemon started on a playlist file holding `a.mp3`, with two connections
accepted (child processes 500 and 501). -/
def two_sessions : Daemon :=
  accept_connection 501
    (accept_connection 500 (startup (some [['a', '.', 'm', 'p', '3', '\n']])))

/-- A path of 600 bytes. -/
def long_path : CStr := List.replicate 600 'a'

/-- The first 507 bytes of `long_path`. -/
def cut_path : CStr := List.replicate 507 'a'

/-- A pass at 1030 that receives `add `, the 600 bytes of `long_path` and a
newline on a healthy system. -/
def pass_add_long : Pass :=
  { inp := Input.readable (kw_add ++ long_path ++ ['\n']), wc := world_at_1030,
    t_status := 1030, send_gone := false, wa := world_at_1030 }

/-! ## Facts about `strncmp` and the command words -/

theorem char_toNat_inj {a b : Char} (h : a.toNat = b.toNat) : a = b := by
  apply Char.ext
  cases ha : a.val with | mk va =>
  cases hb : b.val with | mk vb =>
  simp only [Char.toNat, UInt32.toNat, ha, hb] at h
  congr 1
  exact BitVec.eq_of_toNat_eq h

theorem strncmp_append_self (lit rest : CStr) :
    strncmp (lit ++ rest) lit lit.length = 0 := by
  induction lit with
  | nil => simp [strncmp]
  | cons c cs ih => simp [strncmp, ih]

theorem strncmp_eq_zero_iff (lit : CStr) (hlit : ∀ c ∈ lit, c.toNat ≠ 0) (buf : CStr) :
    strncmp buf lit lit.length = 0 ↔ lit <+: buf := by
  induction lit generalizing buf with
  | nil => simp [strncmp]
  | cons c cs ih =>
    have hc : c.toNat ≠ 0 := hlit c (List.mem_cons_self _ _)
    have hcs : ∀ d ∈ cs, d.toNat ≠ 0 := fun d hd => hlit d (List.mem_cons_of_mem _ hd)
    cases buf with
    | nil =>
      simp only [List.length_cons, strncmp, List.prefix_nil, reduceCtorEq, iff_false]
      omega
    | cons a as =>
      simp only [List.length_cons, strncmp]
      by_cases hac : a = c
      · subst hac
        simp [ih hcs as, List.cons_prefix_cons]
      · have hne : a.toNat ≠ c.toNat := fun h => hac (char_toNat_inj h)
        have hca : ¬ c = a := fun h => hac h.symm
        simp only [hac, hca, if_false, List.cons_prefix_cons, false_and, iff_false]
        omega

theorem strncmp_play_iff (buf : CStr) : strncmp buf kw_play 4 = 0 ↔ kw_play <+: buf :=
  strncmp_eq_zero_iff kw_play (by decide) buf

theorem strncmp_pause_iff (buf : CStr) : strncmp buf kw_pause 5 = 0 ↔ kw_pause <+: buf :=
  strncmp_eq_zero_iff kw_pause (by decide) buf

theorem strncmp_next_iff (buf : CStr) : strncmp buf kw_next 4 = 0 ↔ kw_next <+: buf :=
  strncmp_eq_zero_iff kw_next (by decide) buf

theorem strncmp_add_iff (buf : CStr) : strncmp buf kw_add 4 = 0 ↔ kw_add <+: buf :=
  strncmp_eq_zero_iff kw_add (by decide) buf

theorem strncmp_list_iff (buf : CStr) : strncmp buf kw_list 4 = 0 ↔ kw_list <+: buf :=
  strncmp_eq_zero_iff kw_list (by decide) buf

theorem strncmp_stop_iff (buf : CStr) : strncmp buf kw_stop 4 = 0 ↔ kw_stop <+: buf :=
  strncmp_eq_zero_iff kw_stop (by decide) buf

theorem strncmp_exit_iff (buf : CStr) : strncmp buf kw_exit 4 = 0 ↔ kw_exit <+: buf :=
  strncmp_eq_zero_iff kw_exit (by decide) buf

/-! ## The `list` reply -/

theorem take_take_append {α : Type} (n : Nat) (a b : List α) :
    (a.take n ++ b).take n = (a ++ b).take n := by
  by_cases h : a.length ≤ n
  · rw [List.take_of_length_le h]
  · have hn : n ≤ a.length := by omega
    have h1 : (a.take n).length = n := by simp [List.length_take, hn]
    rw [List.take_append_eq_append_take, List.take_append_eq_append_take, h1]
    have h2 : n - a.length = 0 := by omega
    simp [h2, List.take_take]

/-- The loop of the `list` branch builds the concatenation of the lines, each
cut to `MAX_LEN - 1` bytes, and keeps the first `LISTBUF_SIZE - 1` bytes of it. -/
theorem list_loop_eq (pl : List CStr) :
    ∀ (i : Nat) (acc : CStr), acc.length ≤ LISTBUF_SIZE - 1 →
      list_loop i pl acc
        = (acc ++ ((listing_lines i pl).map (snprintf_cut MAX_LEN)).flatten).take
            (LISTBUF_SIZE - 1) := by
  induction pl with
  | nil =>
    intro i acc h
    simp [list_loop, listing_lines, List.take_of_length_le h]
  | cons p rest ih =>
    intro i acc h
    have hcat : ∀ line : CStr,
        strncat_listbuf acc line = (acc ++ line).take (LISTBUF_SIZE - 1) := by
      intro line
      unfold strncat_listbuf
      rw [List.take_append_eq_append_take, List.take_of_length_le h]
      congr 2
      omega
    have hlen : (strncat_listbuf acc (snprintf_cut MAX_LEN (list_line (i + 1) p))).length
        ≤ LISTBUF_SIZE - 1 := by
      rw [hcat, List.length_take]
      exact min_le_left _ _
    simp only [list_loop, listing_lines, List.map_cons, List.flatten_cons]
    rw [ih (i + 1) _ hlen, hcat, take_take_append, List.append_assoc]

theorem list_reply_length_le (pl : List CStr) :
    (list_reply pl).length ≤ LISTBUF_SIZE - 1 := by
  unfold list_reply
  split_ifs with h
  · simp [LISTBUF_SIZE]
  · rw [list_loop_eq pl 0 [] (by simp), List.length_take]
    exact min_le_left _ _

/-- Every line of a listing is longer than its path by at least three bytes. -/
theorem listing_length_ge (pl : List CStr) :
    ∀ i : Nat, (pl.map (fun p => p.length + 3)).sum ≤ ((listing_lines i pl).flatten).length := by
  induction pl with
  | nil => intro i; simp [listing_lines]
  | cons p rest ih =>
    intro i
    have h := ih (i + 1)
    simp only [listing_lines, List.map_cons, List.sum_cons, List.flatten_cons,
      List.length_append, list_line, List.length_cons, List.length_nil]
    omega

/-! ## The functions one by one -/

/-- What `stop_song` itself establishes: phase stopped, no current track, time
accounting cleared and no player process owned. -/
theorem stop_song_resets (g : Globals) :
    (stop_song g).1.state = PlayState.STATE_STOPPED ∧
    (stop_song g).1.current_song = -1 ∧
    (stop_song g).1.current_duration = 0 ∧
    (stop_song g).1.paused_accum = 0 ∧
    (stop_song g).1.paused_since = 0 ∧
    (stop_song g).1.player_pid ≤ 0 ∧
    (0 < g.player_pid → (stop_song g).1.player_pid = -1 ∧
      (stop_song g).2 = [Sys.kill g.player_pid Signal.SIGKILL, Sys.waitpid g.player_pid]) := by
  unfold stop_song kill_player
  by_cases h : 0 < g.player_pid
  · simp [h]
  · simp [h]
    omega

/-- The globals `play_song` leaves for a valid index, field by field. -/
theorem play_song_globals (w : World) (g : Globals) (i : Int)
    (h0 : 0 ≤ i) (h1 : i < g.song_count) :
    (play_song w g i).1 =
      if 0 < w.fork_ret then
        { playlist := g.playlist, player_pid := w.fork_ret, current_song := i,
          state := PlayState.STATE_PLAYING, play_start := w.now, paused_since := 0,
          paused_accum := 0, current_duration := w.probe (g.song i) }
      else
        { playlist := g.playlist,
          player_pid := if 0 < g.player_pid then -1 else g.player_pid,
          current_song := i, state := g.state, play_start := g.play_start,
          paused_since := 0, paused_accum := 0,
          current_duration := w.probe (g.song i) } := by
  have hg : ¬ (i < 0 ∨ i ≥ g.song_count) := by omega
  unfold play_song kill_player
  simp only [hg, if_false]
  by_cases hf : 0 < w.fork_ret
  · have hf1 : ¬ w.fork_ret < 0 := by omega
    have hf2 : ¬ w.fork_ret = 0 := by omega
    by_cases hp : 0 < g.player_pid <;> simp [hf, hf1, hf2, hp]
  · by_cases hf1 : w.fork_ret < 0
    · by_cases hp : 0 < g.player_pid <;> simp [hf, hf1, hp]
    · have hf2 : w.fork_ret = 0 := by omega
      by_cases hp : 0 < g.player_pid <;> simp [hf2, hp]

/-- The calls `play_song` makes for a valid index: the old player, if any, is
killed and reaped, then `fork` is called. -/
theorem play_song_trace (w : World) (g : Globals) (i : Int)
    (h0 : 0 ≤ i) (h1 : i < g.song_count) :
    (play_song w g i).2 = (kill_player g).2 ++ [Sys.fork_exec (g.song i)] := by
  have hg : ¬ (i < 0 ∨ i ≥ g.song_count) := by omega
  unfold play_song
  simp only [hg, if_false]
  split_ifs <;> rfl

/-- The C remainder of `i + 1` by a positive `n` is the mathematical one when
`-1 ≤ i`, and it is a valid index. -/
theorem next_index_valid (i n : Int) (hi : -1 ≤ i) (hn : 0 < n) :
    Int.tmod (i + 1) n = (i + 1) % n ∧ 0 ≤ Int.tmod (i + 1) n ∧ Int.tmod (i + 1) n < n := by
  have h0 : 0 ≤ i + 1 := by omega
  exact ⟨Int.tmod_eq_emod h0 (le_of_lt hn), Int.tmod_nonneg n h0, Int.tmod_lt_of_pos _ hn⟩

/-- Handling a line that is exactly `next`. -/
theorem handle_command_next (w : World) (g : Globals) :
    handle_command w g kw_next =
      { globals := (next_song w g).1, trace := (next_song w g).2 ++ [Sys.send msg_ok_next],
        closed := false } := by
  simp [handle_command, kw_next, kw_play, kw_pause, strncmp]

/-- Handling a line that is exactly `play`. -/
theorem handle_command_play (w : World) (g : Globals) :
    handle_command w g kw_play =
      { globals :=
          (if g.state = PlayState.STATE_STOPPED then
            if g.song_count > 0 then play_song w g 0 else (g, [Sys.send msg_no_songs])
          else if g.state = PlayState.STATE_PAUSED then resume_song w g
          else (g, [])).1,
        trace :=
          (if g.state = PlayState.STATE_STOPPED then
            if g.song_count > 0 then play_song w g 0 else (g, [Sys.send msg_no_songs])
          else if g.state = PlayState.STATE_PAUSED then resume_song w g
          else (g, [])).2 ++ [Sys.send msg_ok_playing],
        closed := false } := by
  simp [handle_command, kw_play, strncmp]

/-- Handling a line that is exactly `pause`. -/
theorem handle_command_pause (w : World) (g : Globals) :
    handle_command w g kw_pause =
      { globals := (pause_song w g).1, trace := (pause_song w g).2 ++ [Sys.send msg_ok_paused],
        closed := false } := by
  simp [handle_command, kw_play, kw_pause, strncmp]

/-- Handling a line that begins with `list`. -/
theorem handle_command_list (w : World) (g : Globals) (rest : CStr) :
    handle_command w g (kw_list ++ rest) =
      { globals := g, trace := [Sys.send (list_reply g.playlist)], closed := false } := by
  simp [handle_command, kw_list, kw_next, kw_play, kw_pause, kw_add, strncmp]

/-- The two branches of `current_elapsed_seconds` clamp at zero. -/
theorem clamp_eq_max (x : ℚ) : (if x < 0 then 0 else x) = max 0 x := by
  split_ifs with h
  · exact (max_eq_left (le_of_lt h)).symm
  · exact (max_eq_right (not_lt.mp h)).symm

theorem elapsed_stopped (g : Globals) (now : Int) (h : g.state = PlayState.STATE_STOPPED) :
    current_elapsed_seconds g now = 0 := by
  simp [current_elapsed_seconds, h]

theorem elapsed_playing (g : Globals) (now : Int) (h : g.state = PlayState.STATE_PLAYING) :
    current_elapsed_seconds g now
      = max 0 ((now : ℚ) - (g.play_start : ℚ) - g.paused_accum) := by
  simp only [current_elapsed_seconds, h, difftime]
  exact clamp_eq_max _

theorem elapsed_paused (g : Globals) (now : Int) (h : g.state = PlayState.STATE_PAUSED) :
    current_elapsed_seconds g now
      = max 0 ((g.paused_since : ℚ) - (g.play_start : ℚ) - g.paused_accum) := by
  simp only [current_elapsed_seconds, h, difftime]
  exact clamp_eq_max _

/-- The elapsed time does not decrease with the clock. -/
theorem elapsed_mono_clock (g : Globals) (t t2 : Int) (h : t ≤ t2) :
    current_elapsed_seconds g t ≤ current_elapsed_seconds g t2 := by
  have hq : (t : ℚ) ≤ (t2 : ℚ) := by exact_mod_cast h
  cases hs : g.state
  · rw [elapsed_stopped g t hs, elapsed_stopped g t2 hs]
  · rw [elapsed_playing g t hs, elapsed_playing g t2 hs]
    apply max_le_max (le_refl _)
    linarith
  · rw [elapsed_paused g t hs, elapsed_paused g t2 hs]

/-- One step of a play and pause session: the reading after the step is at
least the reading before it, and the session invariant is kept. -/
theorem session_step (g : Globals) (t : Int) (st : PPStep)
    (hinv : session_inv g t) (h1 : t ≤ st.world.now) (h2 : st.world.now ≤ st.t_obs)
    (hk : st.cmd = PPCmd.play → st.world.kill_ret = 0) :
    current_elapsed_seconds g t
        ≤ current_elapsed_seconds (handle_command st.world g st.cmd.line).globals st.t_obs ∧
      session_inv (handle_command st.world g st.cmd.line).globals st.t_obs := by
  obtain ⟨hns, hps⟩ := hinv
  have h12 : t ≤ st.t_obs := le_trans h1 h2
  have q1 : (t : ℚ) ≤ (st.world.now : ℚ) := by exact_mod_cast h1
  have q2 : (st.world.now : ℚ) ≤ (st.t_obs : ℚ) := by exact_mod_cast h2
  have same : current_elapsed_seconds g t ≤ current_elapsed_seconds g st.t_obs ∧
      session_inv g st.t_obs :=
    ⟨elapsed_mono_clock g t st.t_obs h12, hns, fun h => le_trans (hps h) h12⟩
  cases hcmd : st.cmd
  · -- play
    have hkill : st.world.kill_ret = 0 := hk hcmd
    simp only [PPCmd.line, handle_command_play, if_neg hns]
    by_cases hpa : g.state = PlayState.STATE_PAUSED
    · simp only [if_pos hpa]
      by_cases hpid : 0 < g.player_pid
      · have hsince : g.paused_since ≤ t := hps hpa
        have qs : (g.paused_since : ℚ) ≤ (t : ℚ) := by exact_mod_cast hsince
        by_cases hz : g.paused_since = 0
        · have hr : (resume_song st.world g).1
              = { g with state := PlayState.STATE_PLAYING } := by
            simp [resume_song, hpid, hpa, hkill, hz]
          rw [hr]
          refine ⟨?_, by simp [session_inv]⟩
          rw [elapsed_paused g t hpa, elapsed_playing _ _ rfl]
          apply max_le_max (le_refl _)
          simp only
          linarith
        · have hr : (resume_song st.world g).1
              = { g with
                  paused_accum := g.paused_accum + difftime st.world.now g.paused_since
                  paused_since := 0
                  state := PlayState.STATE_PLAYING } := by
            simp [resume_song, hpid, hpa, hkill, hz]
          rw [hr]
          refine ⟨?_, by simp [session_inv]⟩
          rw [elapsed_paused g t hpa, elapsed_playing _ _ rfl]
          apply max_le_max (le_refl _)
          simp only [difftime]
          linarith
      · have hr : (resume_song st.world g).1 = g := by
          simp [resume_song, hpid]
        rw [hr]
        exact same
    · simp only [if_neg hpa]
      exact same
  · -- pause
    simp only [PPCmd.line, handle_command_pause]
    by_cases hc : 0 < g.player_pid ∧ g.state = PlayState.STATE_PLAYING
    · by_cases hkill : st.world.kill_ret = 0
      · have hr : (pause_song st.world g).1
            = { g with paused_since := st.world.now, state := PlayState.STATE_PAUSED } := by
          simp [pause_song, hc, hkill]
        rw [hr]
        refine ⟨?_, by simp [session_inv, h2]⟩
        rw [elapsed_playing g t hc.2, elapsed_paused _ _ rfl]
        apply max_le_max (le_refl _)
        simp only
        linarith
      · have hr : (pause_song st.world g).1 = g := by
          simp [pause_song, hc, hkill]
        rw [hr]
        exact same
    · have hr : (pause_song st.world g).1 = g := by
        simp only [pause_song, if_neg hc]
      rw [hr]
      exact same

/-- Readings of a whole play and pause session never decrease. -/
theorem session_readings_nondecreasing (steps : List PPStep) :
    ∀ (g : Globals) (t : Int), session_inv g t → clock_monotone t steps →
      resumes_delivered steps →
        nondecreasing_from (current_elapsed_seconds g t) (elapsed_readings g steps) := by
  induction steps with
  | nil =>
    intro g t _ _ _
    simp [elapsed_readings, nondecreasing_from]
  | cons st rest ih =>
    intro g t hinv hclock hres
    obtain ⟨h1, h2, hrest⟩ := hclock
    obtain ⟨hk, hkrest⟩ := hres
    obtain ⟨hle, hinv2⟩ := session_step g t st hinv h1 h2 hk
    exact ⟨hle, ih _ _ hinv2 hrest hkrest⟩

/-- The automatic advance when it is due on a playlist that is not empty. -/
theorem auto_advance_due_nonempty (w : World) (g : Globals) (e : ℚ)
    (hdue : advance_due g e) (hpl : g.playlist ≠ []) (hcur : -1 ≤ g.current_song) :
    (auto_advance w g e).1 =
      (if 0 < w.fork_ret then
        { playlist := g.playlist, player_pid := w.fork_ret,
          current_song := (g.current_song + 1) % g.song_count,
          state := PlayState.STATE_PLAYING, play_start := w.now, paused_since := 0,
          paused_accum := 0,
          current_duration := w.probe (g.song ((g.current_song + 1) % g.song_count)) }
      else
        { playlist := g.playlist,
          player_pid := if 0 < g.player_pid then -1 else g.player_pid,
          current_song := (g.current_song + 1) % g.song_count,
          state := PlayState.STATE_PLAYING, play_start := g.play_start,
          paused_since := 0, paused_accum := 0,
          current_duration := w.probe (g.song ((g.current_song + 1) % g.song_count)) }) ∧
    (auto_advance w g e).2 =
      (kill_player g).2 ++ [Sys.fork_exec (g.song ((g.current_song + 1) % g.song_count))] := by
  obtain ⟨hs, hd, he⟩ := hdue
  have hn : 0 < g.song_count := by
    unfold Globals.song_count
    have : 0 < g.playlist.length := List.length_pos.mpr hpl
    omega
  obtain ⟨hmod, hge, hlt⟩ := next_index_valid g.current_song g.song_count hcur hn
  have hk1 : (kill_player g).1.song_count = g.song_count := by
    unfold kill_player Globals.song_count
    split_ifs <;> rfl
  have hk2 : (kill_player g).1.current_song = g.current_song := by
    unfold kill_player
    split_ifs <;> rfl
  have hk3 : ∀ i, (kill_player g).1.song i = g.song i := by
    intro i
    unfold kill_player Globals.song
    split_ifs <;> rfl
  have hk4 : (kill_player (kill_player g).1).2 = [] := by
    unfold kill_player
    split_ifs <;> simp_all
  have hadv : auto_advance w g e
      = ((play_song w (kill_player g).1 (Int.tmod (g.current_song + 1) g.song_count)).1,
          (kill_player g).2
            ++ (play_song w (kill_player g).1
                (Int.tmod (g.current_song + 1) g.song_count)).2) := by
    unfold auto_advance
    simp only [hs, hd, he, and_self, if_true, hk1, hk2, gt_iff_lt, hn]
  rw [hadv]
  simp only
  rw [play_song_globals w _ _ hge (by rw [hk1]; exact hlt),
    play_song_trace w _ _ hge (by rw [hk1]; exact hlt), hk3, hk4, hmod]
  refine ⟨?_, by simp⟩
  unfold kill_player
  by_cases hf : 0 < w.fork_ret
  · by_cases hp : 0 < g.player_pid <;> simp [hf, hp]
  · by_cases hp : 0 < g.player_pid <;> simp [hf, hp, hs]

/-- The automatic advance when it is due on an empty playlist. -/
theorem auto_advance_due_empty (w : World) (g : Globals) (e : ℚ)
    (hdue : advance_due g e) (hpl : g.playlist = []) :
    auto_advance w g e = ((stop_song g).1, (kill_player g).2) := by
  obtain ⟨hs, hd, he⟩ := hdue
  have hn : ¬ (0 < (kill_player g).1.song_count) := by
    unfold kill_player Globals.song_count
    split_ifs <;> simp [hpl]
  unfold auto_advance
  simp only [hs, hd, he, and_self, if_true, gt_iff_lt, hn, if_false]
  unfold stop_song kill_player
  by_cases hp : 0 < g.player_pid <;> simp [hp]

/-- The automatic advance when it is not due. -/
theorem auto_advance_not_due (w : World) (g : Globals) (e : ℚ)
    (hdue : ¬ advance_due g e) : auto_advance w g e = (g, []) := by
  unfold advance_due at hdue
  unfold auto_advance
  by_cases h1 : g.state = PlayState.STATE_PLAYING ∧ g.current_duration > 1
  · have h2 : ¬ e ≥ g.current_duration - 1 / 2 := fun h => hdue ⟨h1.1, h1.2, h⟩
    simp only [h1, and_self, if_true, h2, if_false]
  · simp only [h1, if_false]

/-! ## Claims -/

/-- C1 (the code departs from the claim): handling `stop` or `exit` sends `OK Bye`
and leaves the loop, and that is all: the globals are what they were, no signal
is sent and `stop_song` is not called. In particular the playing daemon
`playing_example` is still in phase playing on track 0 with duration 180 and
still owns process 4242 after `stop`. -/
theorem stop_command_leaves_globals (w : World) (g : Globals) :
    handle_command w g kw_stop = { globals := g, trace := [Sys.send msg_bye], closed := true } ∧
    handle_command w g kw_exit = { globals := g, trace := [Sys.send msg_bye], closed := true } ∧
    (handle_command w playing_example kw_stop).globals.state = PlayState.STATE_PLAYING ∧
    (handle_command w playing_example kw_stop).globals.current_song = 0 ∧
    (handle_command w playing_example kw_stop).globals.current_duration = 180 ∧
    (handle_command w playing_example kw_stop).globals.player_pid = 4242 := by
  have hs : handle_command w g kw_stop
      = { globals := g, trace := [Sys.send msg_bye], closed := true } := by
    simp [handle_command, kw_stop, kw_play, kw_pause, kw_next, kw_add, kw_list, strncmp]
  have he : handle_command w g kw_exit
      = { globals := g, trace := [Sys.send msg_bye], closed := true } := by
    simp [handle_command, kw_stop, kw_exit, kw_play, kw_pause, kw_next, kw_add, kw_list,
      strncmp]
  have hp : handle_command w playing_example kw_stop
      = { globals := playing_example, trace := [Sys.send msg_bye], closed := true } := by
    simp [handle_command, kw_stop, kw_play, kw_pause, kw_next, kw_add, kw_list, strncmp]
  refine ⟨hs, he, ?_, ?_, ?_, ?_⟩ <;> rw [hp] <;> rfl

/-- C2 (the code departs from the claim): in phase stopped with an empty playlist,
handling `play` leaves every global unchanged but sends two reply lines, first
`ERR No songs in playlist` and then `OK Playing`. -/
theorem play_on_empty_playlist_replies_twice (w : World) (pid cur start since : Int)
    (accum dur : ℚ) :
    handle_command w
        { playlist := [], player_pid := pid, current_song := cur,
          state := PlayState.STATE_STOPPED, play_start := start, paused_since := since,
          paused_accum := accum, current_duration := dur } kw_play
      = { globals :=
            { playlist := [], player_pid := pid, current_song := cur,
              state := PlayState.STATE_STOPPED, play_start := start, paused_since := since,
              paused_accum := accum, current_duration := dur },
          trace := [Sys.send msg_no_songs, Sys.send msg_ok_playing],
          closed := false } := by
  simp [handle_command, kw_play, strncmp, Globals.song_count]

/-- C3: on a playlist of `N ≥ 1` tracks, with the current index `i` either none
(`-1`) or valid, handling `next` sets the current index to `(i + 1) mod N` (so 0
from none, and 0 again from `N - 1`), keeps the playlist and answers `OK Next`;
when the player is spawned the phase is playing, `paused_accum` is 0 and
`paused_since` is cleared. On an empty playlist `next` changes no global. On the
playlist `[A, B]` from the initial state, `play` gives index 0, `next` index 1
and a second `next` index 0, whatever the spawns do. -/
theorem next_command_moves_to_following_track :
    (∀ (w : World) (g : Globals), 1 ≤ g.playlist.length → -1 ≤ g.current_song →
      g.current_song < g.song_count →
        (handle_command w g kw_next).globals.current_song
            = (g.current_song + 1) % g.song_count ∧
        (g.current_song = -1 → (handle_command w g kw_next).globals.current_song = 0) ∧
        (g.current_song = g.song_count - 1 →
          (handle_command w g kw_next).globals.current_song = 0) ∧
        (handle_command w g kw_next).globals.playlist = g.playlist ∧
        (handle_command w g kw_next).trace.getLast? = some (Sys.send msg_ok_next) ∧
        (0 < w.fork_ret →
          (handle_command w g kw_next).globals.state = PlayState.STATE_PLAYING ∧
          (handle_command w g kw_next).globals.paused_accum = 0 ∧
          (handle_command w g kw_next).globals.paused_since = 0)) ∧
    (∀ (w : World) (g : Globals), g.playlist = [] →
      handle_command w g kw_next
        = { globals := g, trace := [Sys.send msg_ok_next], closed := false }) ∧
    (∀ (w1 w2 w3 : World) (A B : CStr),
      (handle_command w1 (init [A, B]) kw_play).globals.current_song = 0 ∧
      (handle_command w2 (handle_command w1 (init [A, B]) kw_play).globals
        kw_next).globals.current_song = 1 ∧
      (handle_command w3 (handle_command w2 (handle_command w1 (init [A, B]) kw_play).globals
        kw_next).globals kw_next).globals.current_song = 0) := by
  refine ⟨?_, ?_, ?_⟩
  · intro w g hN hlo hhi
    have hn : 0 < g.song_count := by
      unfold Globals.song_count
      omega
    have hn0 : ¬ g.song_count = 0 := by omega
    obtain ⟨hmod, hge, hlt⟩ := next_index_valid g.current_song g.song_count hlo hn
    have hglob : (handle_command w g kw_next).globals
        = (play_song w g (Int.tmod (g.current_song + 1) g.song_count)).1 := by
      rw [handle_command_next]
      simp [next_song, hn0]
    have htrace : (handle_command w g kw_next).trace
        = (play_song w g (Int.tmod (g.current_song + 1) g.song_count)).2
            ++ [Sys.send msg_ok_next] := by
      rw [handle_command_next]
      simp [next_song, hn0]
    have hidx : (handle_command w g kw_next).globals.current_song
        = (g.current_song + 1) % g.song_count := by
      rw [hglob, play_song_globals w g _ hge hlt, ← hmod]
      split_ifs <;> rfl
    refine ⟨hidx, ?_, ?_, ?_, ?_, ?_⟩
    · intro h
      rw [hidx, h]
      simp
    · intro h
      rw [hidx, h]
      simp
    · rw [hglob, play_song_globals w g _ hge hlt]
      split_ifs <;> rfl
    · rw [htrace]
      simp
    · intro hf
      rw [hglob, play_song_globals w g _ hge hlt]
      simp [hf]
  · intro w g hpl
    rw [handle_command_next]
    simp [next_song, Globals.song_count, hpl]
  · intro w1 w2 w3 A B
    have h1 : (handle_command w1 (init [A, B]) kw_play).globals
        = (play_song w1 (init [A, B]) 0).1 := by
      rw [handle_command_play]
      simp [init, Globals.song_count]
    have e1 := play_song_globals w1 (init [A, B]) 0 (le_refl 0)
      (by simp [init, Globals.song_count])
    have c1 : (play_song w1 (init [A, B]) 0).1.current_song = 0 := by
      rw [e1]
      split_ifs <;> rfl
    have p1 : (play_song w1 (init [A, B]) 0).1.playlist = [A, B] := by
      rw [e1]
      split_ifs <;> rfl
    have n1 : (play_song w1 (init [A, B]) 0).1.song_count = 2 := by
      simp [Globals.song_count, p1]
    have h2 : (handle_command w2 (play_song w1 (init [A, B]) 0).1 kw_next).globals
        = (play_song w2 (play_song w1 (init [A, B]) 0).1 1).1 := by
      rw [handle_command_next]
      simp [next_song, n1, c1]
      rfl
    have e2 := play_song_globals w2 (play_song w1 (init [A, B]) 0).1 1 (by norm_num)
      (by rw [n1]; norm_num)
    have c2 : (play_song w2 (play_song w1 (init [A, B]) 0).1 1).1.current_song = 1 := by
      rw [e2]
      split_ifs <;> rfl
    have p2 : (play_song w2 (play_song w1 (init [A, B]) 0).1 1).1.playlist = [A, B] := by
      rw [e2]
      split_ifs <;> exact p1
    have n2 : (play_song w2 (play_song w1 (init [A, B]) 0).1 1).1.song_count = 2 := by
      simp [Globals.song_count, p2]
    have h3 : (handle_command w3 (play_song w2 (play_song w1 (init [A, B]) 0).1 1).1
        kw_next).globals
        = (play_song w3 (play_song w2 (play_song w1 (init [A, B]) 0).1 1).1 0).1 := by
      rw [handle_command_next]
      simp [next_song, n2, c2]
    have e3 := play_song_globals w3 (play_song w2 (play_song w1 (init [A, B]) 0).1 1).1 0
      (le_refl 0) (by rw [n2]; norm_num)
    refine ⟨?_, ?_, ?_⟩
    · rw [h1]
      exact c1
    · rw [h1, h2]
      exact c2
    · rw [h1, h2, h3, e3]
      split_ifs <;> rfl

/-- Instance of C3: on `two_track_example` (index 0 of 2) `next` gives index 1, and on
the empty initial state `next` changes nothing. -/
theorem next_command_moves_to_following_track_witness :
    (1 ≤ two_track_example.playlist.length ∧ -1 ≤ two_track_example.current_song ∧
      two_track_example.current_song < two_track_example.song_count) ∧
    (handle_command world_example two_track_example kw_next).globals.current_song
      = (two_track_example.current_song + 1) % two_track_example.song_count ∧
    handle_command world_example (init []) kw_next
      = { globals := init [], trace := [Sys.send msg_ok_next], closed := false } :=
  ⟨⟨by decide, by decide, by decide⟩,
    (next_command_moves_to_following_track.1 world_example two_track_example
      (by decide) (by decide) (by decide)).1,
    next_command_moves_to_following_track.2.1 world_example (init []) rfl⟩

/-- C5 as stated fails: for the full playlist of 100 tracks with paths of 40
bytes the reply to `list` is at most 4095 bytes long, the complete listing is at
least 4300 bytes long, so the reply is not the complete listing. -/
theorem list_reply_cut_short :
    full_playlist_example.length = MAX_SONGS ∧
    (∀ p ∈ full_playlist_example, p.length = 40) ∧
    (list_reply full_playlist_example).length ≤ 4095 ∧
    4300 ≤ (listing full_playlist_example).length ∧
    list_reply full_playlist_example ≠ listing full_playlist_example := by
  have h1 : (list_reply full_playlist_example).length ≤ 4095 :=
    list_reply_length_le full_playlist_example
  have h2 : 4300 ≤ (listing full_playlist_example).length := by
    have h := listing_length_ge full_playlist_example 0
    simp only [full_playlist_example, List.map_replicate, List.length_replicate,
      List.sum_replicate, smul_eq_mul] at h
    unfold listing
    simp only [full_playlist_example]
    omega
  refine ⟨by simp [full_playlist_example, MAX_SONGS], ?_, h1, h2, ?_⟩
  · intro p hp
    simp only [full_playlist_example] at hp
    rw [List.eq_of_mem_replicate hp]
    simp
  · intro h
    rw [h] at h1
    omega

/-- C5, amended: the reply to `list` is `No songs.` on an empty playlist;
otherwise it is the lines `k. <path>` in playlist order, `k` counting from 1,
each line cut to 511 bytes and the whole cut to 4095 bytes; when every line
fits in 511 bytes and the complete listing in 4095 bytes, the reply is the
complete listing, no track omitted or cut short. -/
theorem list_reply_is_cut_listing :
    list_reply [] = "No songs.\n".toList ∧
    (∀ pl : List CStr, pl ≠ [] →
      list_reply pl
        = (((listing_lines 0 pl).map (snprintf_cut MAX_LEN)).flatten).take (LISTBUF_SIZE - 1)) ∧
    (∀ pl : List CStr, pl ≠ [] → (∀ l ∈ listing_lines 0 pl, l.length ≤ MAX_LEN - 1) →
      (listing pl).length ≤ LISTBUF_SIZE - 1 → list_reply pl = listing pl) := by
  have hgen : ∀ pl : List CStr, pl ≠ [] →
      list_reply pl
        = (((listing_lines 0 pl).map (snprintf_cut MAX_LEN)).flatten).take
            (LISTBUF_SIZE - 1) := by
    intro pl hpl
    have hlen : ¬ pl.length = 0 := by
      intro h
      exact hpl (List.length_eq_zero.mp h)
    unfold list_reply
    rw [if_neg hlen, list_loop_eq pl 0 [] (by simp)]
    simp
  refine ⟨?_, hgen, ?_⟩
  · simp [list_reply, LISTBUF_SIZE]
  · intro pl hpl hlines htotal
    have hmap : (listing_lines 0 pl).map (snprintf_cut MAX_LEN) = listing_lines 0 pl := by
      conv_rhs => rw [← List.map_id (listing_lines 0 pl)]
      apply List.map_congr_left
      intro l hl
      simp only [snprintf_cut, id]
      exact List.take_of_length_le (hlines l hl)
    rw [hgen pl hpl, hmap]
    exact List.take_of_length_le htotal

/-- Instance of C5, amended: the two tracks `a.mp3` and `b.mp3` are listed in full. -/
theorem list_reply_is_cut_listing_witness :
    list_reply two_track_example.playlist = "1. a.mp3\n2. b.mp3\n".toList :=
  (list_reply_is_cut_listing.2.2 two_track_example.playlist (by decide) (by decide)
    (by decide)).trans (by decide)

/-- C6 as stated fails: the line `playlist` is none of the command words, yet
on the initial state with one track it is answered `OK Playing`, not
`ERR Unknown command`, and it starts playback. -/
theorem playlist_line_starts_playback :
    line_playlist ≠ kw_play ∧
    (handle_command world_example (init [['a', '.', 'm', 'p', '3']]) line_playlist).trace
      = [Sys.fork_exec ['a', '.', 'm', 'p', '3'], Sys.send msg_ok_playing] ∧
    (handle_command world_example (init [['a', '.', 'm', 'p', '3']]) line_playlist).trace
      ≠ [Sys.send msg_unknown] ∧
    (handle_command world_example (init [['a', '.', 'm', 'p', '3']]) line_playlist).globals.state
      = PlayState.STATE_PLAYING ∧
    (handle_command world_example (init [['a', '.', 'm', 'p', '3']]) line_playlist).globals
      ≠ init [['a', '.', 'm', 'p', '3']] := by
  have h : handle_command world_example (init [['a', '.', 'm', 'p', '3']]) line_playlist
      = { globals :=
            { playlist := [['a', '.', 'm', 'p', '3']], player_pid := 77, current_song := 0,
              state := PlayState.STATE_PLAYING, play_start := 1020, paused_since := 0,
              paused_accum := 0, current_duration := 200 },
          trace := [Sys.fork_exec ['a', '.', 'm', 'p', '3'], Sys.send msg_ok_playing],
          closed := false } := by
    simp [handle_command, line_playlist, kw_play, strncmp, init, Globals.song_count,
      play_song, kill_player, world_example, Globals.song]
  refine ⟨by decide, ?_, ?_, ?_, ?_⟩
  · rw [h]
  · rw [h]
    simp
  · rw [h]
  · rw [h]
    simp [init]

/-- C6, amended: a line that begins with none of `play`, `pause`, `next`,
`add ` (blank included), `list`, `stop`, `exit` is answered `ERR Unknown command`
and changes no global; a line that begins with `play`, `pause`, `next`, `list`,
`stop` or `exit` is handled exactly as that word alone, whatever follows it. -/
theorem unknown_command_reply :
    (∀ (w : World) (g : Globals) (buf : CStr),
      ¬ kw_play <+: buf → ¬ kw_pause <+: buf → ¬ kw_next <+: buf → ¬ kw_add <+: buf →
      ¬ kw_list <+: buf → ¬ kw_stop <+: buf → ¬ kw_exit <+: buf →
        handle_command w g buf
          = { globals := g, trace := [Sys.send msg_unknown], closed := false }) ∧
    (∀ (w : World) (g : Globals) (rest : CStr),
      handle_command w g (kw_play ++ rest) = handle_command w g kw_play ∧
      handle_command w g (kw_pause ++ rest) = handle_command w g kw_pause ∧
      handle_command w g (kw_next ++ rest) = handle_command w g kw_next ∧
      handle_command w g (kw_list ++ rest) = handle_command w g kw_list ∧
      handle_command w g (kw_stop ++ rest) = handle_command w g kw_stop ∧
      handle_command w g (kw_exit ++ rest) = handle_command w g kw_exit) := by
  constructor
  · intro w g buf h1 h2 h3 h4 h5 h6 h7
    simp only [handle_command, strncmp_play_iff, strncmp_pause_iff, strncmp_next_iff,
      strncmp_add_iff, strncmp_list_iff, strncmp_stop_iff, strncmp_exit_iff, h1, h2, h3, h4,
      h5, h6, h7, if_false, or_self]
  · intro w g rest
    refine ⟨?_, ?_, ?_, ?_, ?_, ?_⟩
    · simp [handle_command, kw_play, strncmp]
    · simp [handle_command, kw_play, kw_pause, strncmp]
    · simp [handle_command, kw_play, kw_pause, kw_next, strncmp]
    · simp [handle_command, kw_play, kw_pause, kw_next, kw_add, kw_list, strncmp]
    · simp [handle_command, kw_play, kw_pause, kw_next, kw_add, kw_list, kw_stop, strncmp]
    · simp [handle_command, kw_play, kw_pause, kw_next, kw_add, kw_list, kw_stop, kw_exit,
        strncmp]

/-- Instance of C6, amended: the line `hello` is answered `ERR Unknown command`. -/
theorem unknown_command_reply_witness :
    handle_command world_example playing_example line_hello
      = { globals := playing_example, trace := [Sys.send msg_unknown], closed := false } :=
  unknown_command_reply.1 world_example playing_example line_hello
    (by decide) (by decide) (by decide) (by decide) (by decide) (by decide) (by decide)

/-- C7: `current_elapsed_seconds` is 0 in phase stopped, `max 0 (now - play_start -
paused_accum)` in phase playing and `max 0 (paused_since - play_start -
paused_accum)` in phase paused; it is never negative; being a function of the
globals and the clock alone, it changes no global. -/
theorem current_elapsed_seconds_spec (g : Globals) (now : Int) :
    current_elapsed_seconds g now =
      (match g.state with
        | PlayState.STATE_STOPPED => 0
        | PlayState.STATE_PLAYING =>
          max 0 ((now : ℚ) - (g.play_start : ℚ) - g.paused_accum)
        | PlayState.STATE_PAUSED =>
          max 0 ((g.paused_since : ℚ) - (g.play_start : ℚ) - g.paused_accum)) ∧
    0 ≤ current_elapsed_seconds g now := by
  cases hs : g.state
  · simp [elapsed_stopped g now hs]
  · simp [elapsed_playing g now hs]
  · simp [elapsed_paused g now hs]

/-- C8 as stated fails: on `epoch_example`, playing since clock value 0, a pause
at `t1 = 0` and a resume at `t2 = 5`, both signals delivered, return to phase
playing with `paused_accum` still 0 instead of `0 + 5`, and the elapsed time
right after the resume is 5 while it was 0 right before the pause. -/
theorem pause_at_clock_zero_not_accumulated :
    epoch_example.state = PlayState.STATE_PLAYING ∧
    (resume_song world_at_5 (pause_song world_at_0 epoch_example).1).1.state
      = PlayState.STATE_PLAYING ∧
    (resume_song world_at_5 (pause_song world_at_0 epoch_example).1).1.paused_accum = 0 ∧
    (resume_song world_at_5 (pause_song world_at_0 epoch_example).1).1.paused_accum
      ≠ epoch_example.paused_accum + ((5 : ℚ) - 0) ∧
    current_elapsed_seconds epoch_example 0 = 0 ∧
    current_elapsed_seconds
      (resume_song world_at_5 (pause_song world_at_0 epoch_example).1).1 5 = 5 := by
  have h : (resume_song world_at_5 (pause_song world_at_0 epoch_example).1).1
      = epoch_example := by
    simp [resume_song, pause_song, epoch_example, world_at_0, world_at_5]
  rw [h]
  refine ⟨rfl, rfl, rfl, ?_, ?_, ?_⟩
  · norm_num [epoch_example]
  · norm_num [current_elapsed_seconds, epoch_example, difftime]
  · norm_num [current_elapsed_seconds, epoch_example, difftime]

/-- C8, amended: for a playing daemon that owns a player process, a pause at a
clock value `t1` other than 0 (the value `paused_since` uses for "not paused")
and a resume at `t2`, both signals delivered, add exactly `t2 - t1` to
`paused_accum`, keep `play_start`, clear `paused_since`, return to phase playing,
and the elapsed time at `t2` after the resume is the elapsed time at `t1` before
the pause. -/
theorem pause_resume_cycle (w1 w2 : World) (g : Globals)
    (hs : g.state = PlayState.STATE_PLAYING) (hp : 0 < g.player_pid)
    (hk1 : w1.kill_ret = 0) (hk2 : w2.kill_ret = 0) (ht : w1.now ≠ 0) :
    (pause_song w1 g).1.state = PlayState.STATE_PAUSED ∧
    (resume_song w2 (pause_song w1 g).1).1
      = { g with
          paused_accum := g.paused_accum + ((w2.now : ℚ) - (w1.now : ℚ))
          paused_since := 0 } ∧
    (resume_song w2 (pause_song w1 g).1).1.paused_accum
      = g.paused_accum + ((w2.now : ℚ) - (w1.now : ℚ)) ∧
    (resume_song w2 (pause_song w1 g).1).1.play_start = g.play_start ∧
    (resume_song w2 (pause_song w1 g).1).1.state = PlayState.STATE_PLAYING ∧
    current_elapsed_seconds (resume_song w2 (pause_song w1 g).1).1 w2.now
      = current_elapsed_seconds g w1.now := by
  have hpause : (pause_song w1 g).1
      = { g with paused_since := w1.now, state := PlayState.STATE_PAUSED } := by
    simp [pause_song, hs, hp, hk1]
  have hres : (resume_song w2 (pause_song w1 g).1).1
      = { g with
          paused_accum := g.paused_accum + ((w2.now : ℚ) - (w1.now : ℚ))
          paused_since := 0
          state := PlayState.STATE_PLAYING } := by
    rw [hpause]
    simp [resume_song, hp, hk2, ht, difftime]
  have hres2 : (resume_song w2 (pause_song w1 g).1).1
      = { g with
          paused_accum := g.paused_accum + ((w2.now : ℚ) - (w1.now : ℚ))
          paused_since := 0 } := by
    rw [hres, ← hs]
  refine ⟨by rw [hpause], hres2, by rw [hres], by rw [hres], by rw [hres], ?_⟩
  rw [hres, elapsed_playing _ _ rfl, elapsed_playing _ _ hs]
  congr 1
  simp only
  ring

/-- Instance of C8, amended: on `playing_example` a pause at 1010 and a resume at
1020 add 10 seconds to `paused_accum` and leave the elapsed time as it was. -/
theorem pause_resume_cycle_witness :
    (resume_song world_example (pause_song world_at_1010 playing_example).1).1.paused_accum
      = playing_example.paused_accum
        + ((world_example.now : ℚ) - (world_at_1010.now : ℚ)) ∧
    current_elapsed_seconds
        (resume_song world_example (pause_song world_at_1010 playing_example).1).1
        world_example.now
      = current_elapsed_seconds playing_example world_at_1010.now :=
  ⟨(pause_resume_cycle world_at_1010 world_example playing_example rfl (by decide) rfl rfl
      (by decide)).2.2.1,
    (pause_resume_cycle world_at_1010 world_example playing_example rfl (by decide) rfl rfl
      (by decide)).2.2.2.2.2⟩

/-- C9 (the code departs from the claim): on `playing_example`, started at 1000,
against the non-decreasing clock 1000, 1010, 1015 the session `pause`, `play` in
which `kill` fails for the `SIGCONT` of the `play` reads the elapsed times 10
and then 0, a reading smaller than the one before it: `resume_song` has added
the pause to `paused_accum` and cleared `paused_since` before it tested the
result of `kill`, and the phase is still paused. -/
theorem failed_resume_drops_elapsed :
    clock_monotone 1000 failed_resume_session ∧
    current_elapsed_seconds playing_example 1000 = 0 ∧
    elapsed_readings playing_example failed_resume_session = [10, 0] ∧
    ¬ nondecreasing_from (current_elapsed_seconds playing_example 1000)
        (elapsed_readings playing_example failed_resume_session) := by
  have hp1 : (handle_command world_at_1010 playing_example kw_pause).globals
      = { playing_example with paused_since := 1010, state := PlayState.STATE_PAUSED } := by
    simp [handle_command_pause, pause_song, playing_example, world_at_1010]
  have hp2 : (handle_command world_kill_fails
        { playing_example with paused_since := 1010, state := PlayState.STATE_PAUSED }
        kw_play).globals
      = { playing_example with
          paused_accum := 5, paused_since := 0, state := PlayState.STATE_PAUSED } := by
    simp [handle_command_play, resume_song, playing_example, world_kill_fails, difftime]
    norm_num
  have hr : elapsed_readings playing_example failed_resume_session = [10, 0] := by
    simp only [elapsed_readings, failed_resume_session, PPCmd.line, hp1, hp2]
    norm_num [playing_example, current_elapsed_seconds, difftime]
  have h0 : current_elapsed_seconds playing_example 1000 = 0 := by
    norm_num [current_elapsed_seconds, playing_example, difftime]
  refine ⟨?_, h0, hr, ?_⟩
  · simp [clock_monotone, failed_resume_session, world_at_1010, world_kill_fails]
  · rw [hr, h0]
    norm_num [nondecreasing_from]

/-- What the time accounting does achieve: for a playing daemon and every
sequence of `play` and `pause` commands handled against a non-decreasing clock
in which `kill` succeeds for every `SIGCONT`, each elapsed time read after a
step is at least the one read before it; and in phase paused the elapsed time
is the same at every clock value. -/
theorem play_pause_elapsed_monotone :
    (∀ (g : Globals) (t : Int) (steps : List PPStep),
      g.state = PlayState.STATE_PLAYING → clock_monotone t steps → resumes_delivered steps →
        nondecreasing_from (current_elapsed_seconds g t) (elapsed_readings g steps)) ∧
    (∀ (g : Globals) (t t2 : Int), g.state = PlayState.STATE_PAUSED →
      current_elapsed_seconds g t = current_elapsed_seconds g t2) := by
  constructor
  · intro g t steps hs hclock hres
    apply session_readings_nondecreasing steps g t _ hclock hres
    constructor
    · rw [hs]
      decide
    · intro h
      rw [hs] at h
      exact absurd h (by decide)
  · intro g t t2 hs
    rw [elapsed_paused g t hs, elapsed_paused g t2 hs]

/-- An instance: on `playing_example` the session `pause` at 1010, `play` at 1020
with both signals delivered has non-decreasing readings, and the paused
`two_track_example` reads the same elapsed time at 1010 and at 2000. -/
theorem play_pause_elapsed_monotone_witness :
    nondecreasing_from (current_elapsed_seconds playing_example 1000)
      (elapsed_readings playing_example pause_play_session) ∧
    current_elapsed_seconds two_track_example 1010
      = current_elapsed_seconds two_track_example 2000 :=
  ⟨play_pause_elapsed_monotone.1 playing_example 1000 pause_play_session rfl
      (by simp [clock_monotone, pause_play_session, world_at_1010, world_example])
      (by simp [resumes_delivered, pause_play_session, world_example]),
    play_pause_elapsed_monotone.2 two_track_example 1010 2000 rfl⟩

/-- C10 (the code departs from the claim): on `short_track_example` (track 0 of
2, 10 seconds long, started at 1000) the tick at 1010 finds the advance due;
when the `fork` of the advance fails, `play_song` returns early and the globals
afterwards have phase playing on index 1 with no player process and with
`play_start` still 1000, not the time of the advance, so the elapsed time of
the new track reads 10 at once: the time accounting is not fresh. -/
theorem failed_spawn_keeps_old_start :
    advance_due short_track_example (current_elapsed_seconds short_track_example 1010) ∧
    (status_tick 1010 false world_fork_fails short_track_example).globals
      = { playlist := [['a', '.', 'm', 'p', '3'], ['b', '.', 'm', 'p', '3']],
          player_pid := -1, current_song := 1, state := PlayState.STATE_PLAYING,
          play_start := 1000, paused_since := 0, paused_accum := 0,
          current_duration := 200 } ∧
    (status_tick 1010 false world_fork_fails short_track_example).globals.play_start
      ≠ world_fork_fails.now ∧
    current_elapsed_seconds
      (status_tick 1010 false world_fork_fails short_track_example).globals 1010 = 10 := by
  have he : current_elapsed_seconds short_track_example 1010 = 10 := by
    norm_num [current_elapsed_seconds, short_track_example, difftime]
  have hdue : advance_due short_track_example
      (current_elapsed_seconds short_track_example 1010) := by
    rw [he]
    norm_num [advance_due, short_track_example]
  have hg : (status_tick 1010 false world_fork_fails short_track_example).globals
      = { playlist := [['a', '.', 'm', 'p', '3'], ['b', '.', 'm', 'p', '3']],
          player_pid := -1, current_song := 1, state := PlayState.STATE_PLAYING,
          play_start := 1000, paused_since := 0, paused_accum := 0,
          current_duration := 200 } := by
    have h := (auto_advance_due_nonempty world_fork_fails short_track_example _ hdue
      (by simp [short_track_example]) (by simp [short_track_example])).1
    simp only [status_tick, Bool.false_eq_true, if_false]
    rw [h]
    simp [world_fork_fails, short_track_example, Globals.song_count]
  refine ⟨hdue, hg, ?_, ?_⟩
  · rw [hg]
    simp [world_fork_fails]
  · rw [hg]
    norm_num [current_elapsed_seconds, difftime]

/-- What the automatic advance does at a status tick whose status line was
sent, read at clock value `t`, with `e` the elapsed time at `t`: unless the
phase is playing, the duration above 1 and `e` at least the duration less one
half, the tick leaves every global unchanged and only sends the status lines
(so a probed duration of 0 never advances). Otherwise the owned player process
is killed and reaped, and when the spawn succeeds on a playlist of `N ≥ 1`
tracks with current index `i ≥ -1` the phase is playing on index
`(i + 1) mod N` with `paused_accum` and `paused_since` 0, the duration probed
anew, `play_start` the time of the advance and the new process owned; on an
empty playlist the globals are those `stop_song` leaves, phase stopped. -/
theorem status_tick_auto_advance :
    (∀ (t : Int) (w : World) (g : Globals),
      ¬ advance_due g (current_elapsed_seconds g t) →
        status_tick t false w g
          = { globals := g, trace := status_trace g (current_elapsed_seconds g t),
              closed := false }) ∧
    (∀ (t : Int) (w : World) (g : Globals),
      advance_due g (current_elapsed_seconds g t) → g.playlist ≠ [] → -1 ≤ g.current_song →
        (status_tick t false w g).globals.current_song
          = (g.current_song + 1) % g.song_count ∧
        (status_tick t false w g).globals.paused_accum = 0 ∧
        (status_tick t false w g).globals.paused_since = 0 ∧
        (status_tick t false w g).globals.current_duration
          = w.probe (g.song ((g.current_song + 1) % g.song_count)) ∧
        (status_tick t false w g).globals.playlist = g.playlist ∧
        (0 < w.fork_ret →
          (status_tick t false w g).globals.state = PlayState.STATE_PLAYING ∧
          (status_tick t false w g).globals.play_start = w.now ∧
          (status_tick t false w g).globals.player_pid = w.fork_ret) ∧
        (status_tick t false w g).trace =
          status_trace g (current_elapsed_seconds g t) ++ (kill_player g).2
            ++ [Sys.fork_exec (g.song ((g.current_song + 1) % g.song_count))] ∧
        (0 < g.player_pid → (kill_player g).2
          = [Sys.kill g.player_pid Signal.SIGKILL, Sys.waitpid g.player_pid])) ∧
    (∀ (t : Int) (w : World) (g : Globals),
      advance_due g (current_elapsed_seconds g t) → g.playlist = [] →
        (status_tick t false w g).globals = (stop_song g).1 ∧
        (status_tick t false w g).globals.state = PlayState.STATE_STOPPED ∧
        (status_tick t false w g).trace =
          status_trace g (current_elapsed_seconds g t) ++ (kill_player g).2) := by
  refine ⟨?_, ?_, ?_⟩
  · intro t w g hdue
    simp [status_tick, auto_advance_not_due w g _ hdue]
  · intro t w g hdue hpl hcur
    obtain ⟨h1, h2⟩ := auto_advance_due_nonempty w g _ hdue hpl hcur
    have hg : (status_tick t false w g).globals
        = (auto_advance w g (current_elapsed_seconds g t)).1 := by
      simp only [status_tick, Bool.false_eq_true, if_false]
    rw [hg, h1]
    refine ⟨?_, ?_, ?_, ?_, ?_, ?_, ?_, ?_⟩
    · split_ifs <;> rfl
    · split_ifs <;> rfl
    · split_ifs <;> rfl
    · split_ifs <;> rfl
    · split_ifs <;> rfl
    · intro hf
      simp [hf]
    · simp only [status_tick, Bool.false_eq_true, if_false]
      rw [h2, List.append_assoc]
    · intro hp
      simp [kill_player, hp]
  · intro t w g hdue hpl
    have h := auto_advance_due_empty w g _ hdue hpl
    refine ⟨?_, ?_, ?_⟩
    · simp only [status_tick, Bool.false_eq_true, if_false]
      rw [h]
    · simp only [status_tick, Bool.false_eq_true, if_false]
      rw [h]
      exact (stop_song_resets g).1
    · simp only [status_tick, Bool.false_eq_true, if_false]
      rw [h]

/-- An instance: `playing_example` at 1005 is not due and the tick changes
nothing; `short_track_example` at 1010 is due and a healthy system moves it to
index 1, playing, started at 1010. -/
theorem status_tick_auto_advance_witness :
    (status_tick 1005 false world_example playing_example).globals = playing_example ∧
    (status_tick 1010 false world_at_1010 short_track_example).globals.current_song
      = (short_track_example.current_song + 1) % short_track_example.song_count ∧
    (status_tick 1010 false world_at_1010 short_track_example).globals.state
      = PlayState.STATE_PLAYING ∧
    (status_tick 1010 false world_at_1010 short_track_example).globals.play_start
      = world_at_1010.now := by
  have h1 := status_tick_auto_advance.1 1005 world_example playing_example
    (by norm_num [advance_due, current_elapsed_seconds, playing_example, difftime])
  have h2 := status_tick_auto_advance.2.1 1010 world_at_1010 short_track_example
    (by norm_num [advance_due, current_elapsed_seconds, short_track_example, difftime])
    (by simp [short_track_example]) (by simp [short_track_example])
  have h3 := h2.2.2.2.2.2.1 (by simp [world_at_1010])
  exact ⟨by rw [h1], h2.1, h3.1, h3.2.1⟩

/-- Handling a line that begins with `add` and a blank. -/
theorem handle_command_add (w : World) (g : Globals) (p : CStr) :
    handle_command w g (kw_add ++ p) =
      if g.playlist.length < MAX_SONGS then
        { globals := { g with playlist := g.playlist ++ [p] },
          trace := [Sys.save_playlist (g.playlist ++ [p]), Sys.send msg_ok_added],
          closed := false }
      else { globals := g, trace := [Sys.send msg_full], closed := false } := by
  have hc : (g.song_count < (MAX_SONGS : Int)) ↔ g.playlist.length < MAX_SONGS := by
    unfold Globals.song_count
    exact Int.ofNat_lt
  simp only [handle_command, kw_add, kw_play, kw_pause, kw_next, strncmp, List.cons_append,
    List.nil_append, List.drop_succ_cons, List.drop_zero, hc]
  simp

/-! ## States a session can reach -/

/-- A property kept by every pass holds after any number of passes. -/
theorem run_passes_keeps (P : Globals → Prop) (ok : Pass → Prop)
    (hstep : ∀ (g : Globals) (p : Pass), P g → ok p → P (p.run g).globals) :
    ∀ (passes : List Pass) (g : Globals), P g → (∀ p ∈ passes, ok p) →
      P (run_passes g passes) := by
  intro passes
  induction passes with
  | nil =>
    intro g hg _
    exact hg
  | cons p rest ih =>
    intro g hg hok
    have hp : P (p.run g).globals := hstep g p hg (hok p (List.mem_cons_self _ _))
    simp only [run_passes]
    split_ifs
    · exact hp
    · exact ih _ hp (fun q hq => hok q (List.mem_cons_of_mem _ hq))

theorem kill_player_frame (g : Globals) :
    (kill_player g).1.playlist = g.playlist ∧
    (kill_player g).1.current_song = g.current_song ∧
    (kill_player g).1.state = g.state ∧
    (kill_player g).1.player_pid ≤ 0 := by
  unfold kill_player
  by_cases h : 0 < g.player_pid
  · simp [h]
  · simp [h]
    omega

theorem index_inv_of_frame (g g2 : Globals) (h : index_inv g)
    (hp : g2.playlist = g.playlist) (hc : g2.current_song = g.current_song) :
    index_inv g2 := by
  unfold index_inv Globals.song_count at *
  rw [hp, hc]
  exact h

theorem play_song_index_inv (w : World) (g : Globals) (i : Int) (h : index_inv g) :
    index_inv (play_song w g i).1 := by
  by_cases hv : i < 0 ∨ i ≥ g.song_count
  · simp only [play_song, hv, if_true]
    exact h
  · have h0 : 0 ≤ i := by omega
    have h1 : i < g.song_count := by omega
    rw [play_song_globals w g i h0 h1]
    unfold index_inv Globals.song_count at *
    split_ifs <;> exact ⟨h.1, Or.inr ⟨h0, h1⟩⟩

theorem pause_song_frame (w : World) (g : Globals) :
    (pause_song w g).1.playlist = g.playlist ∧
    (pause_song w g).1.current_song = g.current_song ∧
    (pause_song w g).1.player_pid = g.player_pid := by
  unfold pause_song
  split_ifs <;> exact ⟨rfl, rfl, rfl⟩

theorem resume_song_frame (w : World) (g : Globals) :
    (resume_song w g).1.playlist = g.playlist ∧
    (resume_song w g).1.current_song = g.current_song ∧
    (resume_song w g).1.player_pid = g.player_pid := by
  unfold resume_song
  split_ifs <;> exact ⟨rfl, rfl, rfl⟩

theorem stop_song_index_inv (g : Globals) (h : index_inv g) : index_inv (stop_song g).1 := by
  obtain ⟨hp, _, _, _⟩ := kill_player_frame g
  unfold index_inv Globals.song_count at *
  unfold stop_song
  exact ⟨by simp only [hp]; exact h.1, Or.inl rfl⟩

theorem next_song_index_inv (w : World) (g : Globals) (h : index_inv g) :
    index_inv (next_song w g).1 := by
  unfold next_song
  split_ifs
  · exact h
  · exact play_song_index_inv w g _ h

theorem handle_command_index_inv (w : World) (g : Globals) (buf : CStr) (h : index_inv g) :
    index_inv (handle_command w g buf).globals := by
  unfold handle_command
  split_ifs with h1 h2 h3 h4 h5 h6 h7 h8 h9 h10
  · exact play_song_index_inv w g 0 h
  · exact h
  · exact index_inv_of_frame g _ h (resume_song_frame w g).1 (resume_song_frame w g).2.1
  · exact h
  · exact index_inv_of_frame g _ h (pause_song_frame w g).1 (pause_song_frame w g).2.1
  · exact next_song_index_inv w g h
  · unfold index_inv Globals.song_count MAX_SONGS at *
    simp only [List.length_append, List.length_singleton, Nat.cast_add, Nat.cast_one]
    constructor
    · have : ((g.playlist.length : Int)) < 100 := by exact_mod_cast h8
      omega
    · rcases h.2 with hc | hc
      · exact Or.inl hc
      · exact Or.inr ⟨hc.1, by omega⟩
  · exact h
  · exact h
  · exact h
  · exact h

theorem auto_advance_index_inv (w : World) (g : Globals) (e : ℚ) (h : index_inv g) :
    index_inv (auto_advance w g e).1 := by
  obtain ⟨hp, hc, _, _⟩ := kill_player_frame g
  have hk : index_inv (kill_player g).1 := index_inv_of_frame g _ h hp hc
  unfold auto_advance
  dsimp only
  split_ifs
  · exact play_song_index_inv w _ _ hk
  · exact stop_song_index_inv _ hk
  · exact h
  · exact h

theorem status_tick_index_inv (t : Int) (sg : Bool) (w : World) (g : Globals)
    (h : index_inv g) : index_inv (status_tick t sg w g).globals := by
  unfold status_tick
  split_ifs
  · exact h
  · exact auto_advance_index_inv w g _ h

theorem pass_index_inv (g : Globals) (p : Pass) (h : index_inv g) :
    index_inv (p.run g).globals := by
  unfold Pass.run handle_client_pass
  cases p.inp with
  | timeout => exact status_tick_index_inv _ _ _ _ h
  | eintr => exact h
  | failed => exact h
  | readable raw =>
    simp only
    split_ifs
    · exact h
    · exact handle_command_index_inv _ _ _ h
    · exact status_tick_index_inv _ _ _ _ (handle_command_index_inv _ _ _ h)

theorem init_index_inv (file : Option (List CStr)) : index_inv (init (load_playlist file)) := by
  unfold index_inv init load_playlist
  refine ⟨?_, Or.inl rfl⟩
  cases file with
  | none => simp
  | some lines =>
    simp only [List.length_map, List.length_take]
    exact min_le_left _ _

/-- A pass that receives a line, does not leave the loop on it and finds no
advance due: the globals are those the command leaves, and the status lines
follow the reply. -/
theorem pass_readable_not_due (p : Pass) (raw : List Char) (g : Globals)
    (hinp : p.inp = Input.readable raw) (hraw : raw.length ≠ 0) (hsg : p.send_gone = false)
    (hopen : (handle_command p.wc g (trim_line (recv_buf raw))).closed = false)
    (hnot : ¬ advance_due (handle_command p.wc g (trim_line (recv_buf raw))).globals
      (current_elapsed_seconds (handle_command p.wc g (trim_line (recv_buf raw))).globals
        p.t_status)) :
    p.run g =
      { globals := (handle_command p.wc g (trim_line (recv_buf raw))).globals,
        trace := (handle_command p.wc g (trim_line (recv_buf raw))).trace ++
          status_trace (handle_command p.wc g (trim_line (recv_buf raw))).globals
            (current_elapsed_seconds (handle_command p.wc g (trim_line (recv_buf raw))).globals
              p.t_status),
        closed := false } := by
  unfold Pass.run handle_client_pass
  rw [hinp]
  simp only [hraw, if_false, hopen, Bool.false_eq_true, status_tick, hsg,
    auto_advance_not_due p.wa _ _ hnot, List.append_nil]

/-- A pass in which `select` times out and no advance is due: only the status
lines are sent. -/
theorem pass_timeout_not_due (p : Pass) (g : Globals)
    (hinp : p.inp = Input.timeout) (hsg : p.send_gone = false)
    (hnot : ¬ advance_due g (current_elapsed_seconds g p.t_status)) :
    p.run g =
      { globals := g, trace := status_trace g (current_elapsed_seconds g p.t_status),
        closed := false } := by
  unfold Pass.run handle_client_pass
  rw [hinp]
  simp only [status_tick, hsg, Bool.false_eq_true, if_false,
    auto_advance_not_due p.wa _ _ hnot, List.append_nil]

/-- No advance is due outside the phase playing. -/
theorem not_due_of_not_playing (g : Globals) (e : ℚ)
    (h : g.state ≠ PlayState.STATE_PLAYING) : ¬ advance_due g e :=
  fun hd => h hd.1

/-- The first pass of the example sessions: `play` on the one-track playlist
starts track 0 as process 77 at 1020. -/
theorem pass_play_result :
    pass_play.run (init [['a', '.', 'm', 'p', '3']])
      = { globals :=
            { playlist := [['a', '.', 'm', 'p', '3']], player_pid := 77, current_song := 0,
              state := PlayState.STATE_PLAYING, play_start := 1020, paused_since := 0,
              paused_accum := 0, current_duration := 200 },
          trace := [Sys.fork_exec ['a', '.', 'm', 'p', '3'], Sys.send msg_ok_playing,
            Sys.send_status "PLAYING".toList 0 200,
            Sys.send (snprintf_cut 256 ("PLAYING ".toList ++ ['a', '.', 'm', 'p', '3'] ++ ['\n']))],
          closed := false } := by
  have hc : handle_command pass_play.wc (init [['a', '.', 'm', 'p', '3']])
        (trim_line (recv_buf raw_play))
      = { globals :=
            { playlist := [['a', '.', 'm', 'p', '3']], player_pid := 77, current_song := 0,
              state := PlayState.STATE_PLAYING, play_start := 1020, paused_since := 0,
              paused_accum := 0, current_duration := 200 },
          trace := [Sys.fork_exec ['a', '.', 'm', 'p', '3'], Sys.send msg_ok_playing],
          closed := false } := by
    have hb : trim_line (recv_buf raw_play) = kw_play := by decide
    rw [hb, handle_command_play]
    simp [pass_play, init, Globals.song_count, play_song, kill_player, world_example,
      Globals.song]
  have he : current_elapsed_seconds
      { playlist := [['a', '.', 'm', 'p', '3']], player_pid := 77, current_song := 0,
        state := PlayState.STATE_PLAYING, play_start := 1020, paused_since := 0,
        paused_accum := 0, current_duration := 200 } 1020 = 0 := by
    norm_num [current_elapsed_seconds, difftime]
  rw [pass_readable_not_due pass_play raw_play _ rfl (by decide) rfl (by rw [hc])
    (by rw [hc]; simp only [pass_play]; rw [he]; norm_num [advance_due])]
  rw [hc]
  simp only [pass_play]
  rw [he]
  simp [status_trace, stname, Globals.song_count, Globals.song]

/-- The second pass of the failing session: `next` at 1030 while `fork` fails
kills process 77 and leaves phase playing with no process. -/
theorem pass_next_fork_fails_result :
    pass_next_fork_fails.run
        { playlist := [['a', '.', 'm', 'p', '3']], player_pid := 77, current_song := 0,
          state := PlayState.STATE_PLAYING, play_start := 1020, paused_since := 0,
          paused_accum := 0, current_duration := 200 }
      = { globals :=
            { playlist := [['a', '.', 'm', 'p', '3']], player_pid := -1, current_song := 0,
              state := PlayState.STATE_PLAYING, play_start := 1020, paused_since := 0,
              paused_accum := 0, current_duration := 200 },
          trace := [Sys.kill 77 Signal.SIGKILL, Sys.waitpid 77,
            Sys.fork_exec ['a', '.', 'm', 'p', '3'], Sys.send msg_ok_next,
            Sys.send_status "PLAYING".toList 10 200,
            Sys.send (snprintf_cut 256 ("PLAYING ".toList ++ ['a', '.', 'm', 'p', '3'] ++ ['\n']))],
          closed := false } := by
  have hc : handle_command pass_next_fork_fails.wc
        { playlist := [['a', '.', 'm', 'p', '3']], player_pid := 77, current_song := 0,
          state := PlayState.STATE_PLAYING, play_start := 1020, paused_since := 0,
          paused_accum := 0, current_duration := 200 }
        (trim_line (recv_buf raw_next))
      = { globals :=
            { playlist := [['a', '.', 'm', 'p', '3']], player_pid := -1, current_song := 0,
              state := PlayState.STATE_PLAYING, play_start := 1020, paused_since := 0,
              paused_accum := 0, current_duration := 200 },
          trace := [Sys.kill 77 Signal.SIGKILL, Sys.waitpid 77,
            Sys.fork_exec ['a', '.', 'm', 'p', '3'], Sys.send msg_ok_next],
          closed := false } := by
    have hb : trim_line (recv_buf raw_next) = kw_next := by decide
    rw [hb, handle_command_next]
    simp [pass_next_fork_fails, next_song, Globals.song_count, play_song, kill_player,
      world_fork_fails_1030, Globals.song]
  have he : current_elapsed_seconds
      { playlist := [['a', '.', 'm', 'p', '3']], player_pid := -1, current_song := 0,
        state := PlayState.STATE_PLAYING, play_start := 1020, paused_since := 0,
        paused_accum := 0, current_duration := 200 } 1030 = 10 := by
    norm_num [current_elapsed_seconds, difftime]
  rw [pass_readable_not_due pass_next_fork_fails raw_next _ rfl (by decide) rfl (by rw [hc])
    (by rw [hc]; simp only [pass_next_fork_fails]; rw [he]; norm_num [advance_due])]
  rw [hc]
  simp only [pass_next_fork_fails]
  rw [he]
  simp [status_trace, stname, Globals.song_count, Globals.song]

/-- Function `play_song` keeps the ownership invariant when the spawn succeeds. -/
theorem play_song_owns (w : World) (g : Globals) (i : Int) (hf : 0 < w.fork_ret)
    (h : owns_iff_active g) : owns_iff_active (play_song w g i).1 := by
  by_cases hv : i < 0 ∨ i ≥ g.song_count
  · simp only [play_song, hv, if_true]
    exact h
  · have h0 : 0 ≤ i := by omega
    have h1 : i < g.song_count := by omega
    rw [play_song_globals w g i h0 h1, if_pos hf]
    unfold owns_iff_active
    simp [hf]

theorem pause_song_owns (w : World) (g : Globals) (h : owns_iff_active g) :
    owns_iff_active (pause_song w g).1 := by
  unfold pause_song
  split_ifs with h1 h2
  · unfold owns_iff_active
    simp [h1.1]
  · exact h
  · exact h

theorem resume_song_owns (w : World) (g : Globals) (h : owns_iff_active g) :
    owns_iff_active (resume_song w g).1 := by
  unfold resume_song
  split_ifs with h1
  all_goals first
    | exact h
    | (unfold owns_iff_active; simp [h1.1, h1.2])

theorem stop_song_owns (g : Globals) : owns_iff_active (stop_song g).1 := by
  obtain ⟨hs, _, _, _, _, hp, _⟩ := stop_song_resets g
  unfold owns_iff_active
  rw [hs]
  constructor
  · intro h
    omega
  · intro h
    rcases h with h | h <;> exact absurd h (by decide)

theorem handle_command_owns (w : World) (g : Globals) (buf : CStr) (hf : 0 < w.fork_ret)
    (h : owns_iff_active g) : owns_iff_active (handle_command w g buf).globals := by
  unfold handle_command
  split_ifs
  · exact play_song_owns w g 0 hf h
  · exact h
  · exact resume_song_owns w g h
  · exact h
  · exact pause_song_owns w g h
  · unfold next_song
    split_ifs
    · exact h
    · exact play_song_owns w g _ hf h
  · exact h
  · exact h
  · exact h
  · exact h
  · exact h

theorem index_inv_current_ge (g : Globals) (h : index_inv g) : -1 ≤ g.current_song := by
  rcases h.2 with hc | hc
  · omega
  · omega

theorem auto_advance_owns (w : World) (g : Globals) (e : ℚ) (hf : 0 < w.fork_ret)
    (hi : index_inv g) (h : owns_iff_active g) : owns_iff_active (auto_advance w g e).1 := by
  by_cases hdue : advance_due g e
  · by_cases hpl : g.playlist = []
    · rw [auto_advance_due_empty w g e hdue hpl]
      exact stop_song_owns g
    · rw [(auto_advance_due_nonempty w g e hdue hpl (index_inv_current_ge g hi)).1, if_pos hf]
      unfold owns_iff_active
      simp [hf]
  · rw [auto_advance_not_due w g e hdue]
    exact h

/-- One pass keeps the index bounds and, when its spawns succeed, the ownership
invariant. -/
theorem pass_owns (g : Globals) (p : Pass) (h : index_inv g ∧ owns_iff_active g)
    (hp : spawns_succeed p) : index_inv (p.run g).globals ∧ owns_iff_active (p.run g).globals := by
  refine ⟨pass_index_inv g p h.1, ?_⟩
  have htick : ∀ g2 : Globals, index_inv g2 → owns_iff_active g2 →
      owns_iff_active (status_tick p.t_status p.send_gone p.wa g2).globals := by
    intro g2 hi ho
    unfold status_tick
    split_ifs
    · exact ho
    · exact auto_advance_owns p.wa g2 _ hp.2 hi ho
  unfold Pass.run handle_client_pass
  cases p.inp with
  | timeout => exact htick g h.1 h.2
  | eintr => exact h.2
  | failed => exact h.2
  | readable raw =>
    simp only
    split_ifs
    · exact h.2
    · exact handle_command_owns _ _ _ hp.1 h.2
    · exact htick _ (handle_command_index_inv _ _ _ h.1) (handle_command_owns _ _ _ hp.1 h.2)

/-- When every spawn succeeds, whatever the signals do, a session owns a player
process exactly in the phases playing and paused. -/
theorem spawns_succeed_owns_iff_active (file : Option (List CStr)) (passes : List Pass)
    (hp : ∀ p ∈ passes, spawns_succeed p) :
    owns_iff_active (run_passes (init (load_playlist file)) passes) := by
  have h0 : index_inv (init (load_playlist file)) ∧ owns_iff_active (init (load_playlist file)) := by
    refine ⟨init_index_inv file, ?_⟩
    unfold owns_iff_active init
    simp
  exact (run_passes_keeps (fun g => index_inv g ∧ owns_iff_active g) spawns_succeed
    pass_owns passes _ h0 hp).2

/-! ## Claims on reachable states -/

/-- C11 (the code departs from the claim): from the initial stopped state on the
playlist `[a.mp3]`, the pass `play` (spawn succeeds, process 77) followed by the
pass `next` whose `fork` fails reaches a state in phase playing whose
`player_pid` is `-1`: no process is owned although the phase is playing. -/
theorem failed_spawn_leaves_playing_without_process :
    run_passes (init [['a', '.', 'm', 'p', '3']]) [pass_play, pass_next_fork_fails]
      = { playlist := [['a', '.', 'm', 'p', '3']], player_pid := -1, current_song := 0,
          state := PlayState.STATE_PLAYING, play_start := 1020, paused_since := 0,
          paused_accum := 0, current_duration := 200 } ∧
    (run_passes (init [['a', '.', 'm', 'p', '3']]) [pass_play, pass_next_fork_fails]).state
      = PlayState.STATE_PLAYING ∧
    ¬ 0 < (run_passes (init [['a', '.', 'm', 'p', '3']])
      [pass_play, pass_next_fork_fails]).player_pid ∧
    ¬ owns_iff_active
      (run_passes (init [['a', '.', 'm', 'p', '3']]) [pass_play, pass_next_fork_fails]) := by
  have hr : run_passes (init [['a', '.', 'm', 'p', '3']]) [pass_play, pass_next_fork_fails]
      = { playlist := [['a', '.', 'm', 'p', '3']], player_pid := -1, current_song := 0,
          state := PlayState.STATE_PLAYING, play_start := 1020, paused_since := 0,
          paused_accum := 0, current_duration := 200 } := by
    simp only [run_passes, pass_play_result, pass_next_fork_fails_result, Bool.false_eq_true,
      if_false]
  rw [hr]
  refine ⟨rfl, rfl, by decide, ?_⟩
  unfold owns_iff_active
  simp

/-- The example daemon: the acceptor and both sessions hold the initial globals
on the playlist `[a.mp3]`. -/
theorem two_sessions_eq :
    two_sessions
      = { acceptor := init [['a', '.', 'm', 'p', '3']],
          sessions := [init [['a', '.', 'm', 'p', '3']], init [['a', '.', 'm', 'p', '3']]] } := by
  simp [two_sessions, accept_connection, startup, load_playlist, MAX_SONGS]

/-- The `pause` pass of the example: process 77 is stopped at 1030. -/
theorem pass_pause_result :
    pass_pause.run
        { playlist := [['a', '.', 'm', 'p', '3']], player_pid := 77, current_song := 0,
          state := PlayState.STATE_PLAYING, play_start := 1020, paused_since := 0,
          paused_accum := 0, current_duration := 200 }
      = { globals :=
            { playlist := [['a', '.', 'm', 'p', '3']], player_pid := 77, current_song := 0,
              state := PlayState.STATE_PAUSED, play_start := 1020, paused_since := 1030,
              paused_accum := 0, current_duration := 200 },
          trace := [Sys.kill 77 Signal.SIGSTOP, Sys.send msg_ok_paused,
            Sys.send_status "PAUSED".toList 10 200,
            Sys.send (snprintf_cut 256 ("PLAYING ".toList ++ ['a', '.', 'm', 'p', '3'] ++ ['\n']))],
          closed := false } := by
  have hc : handle_command pass_pause.wc
        { playlist := [['a', '.', 'm', 'p', '3']], player_pid := 77, current_song := 0,
          state := PlayState.STATE_PLAYING, play_start := 1020, paused_since := 0,
          paused_accum := 0, current_duration := 200 }
        (trim_line (recv_buf raw_pause))
      = { globals :=
            { playlist := [['a', '.', 'm', 'p', '3']], player_pid := 77, current_song := 0,
              state := PlayState.STATE_PAUSED, play_start := 1020, paused_since := 1030,
              paused_accum := 0, current_duration := 200 },
          trace := [Sys.kill 77 Signal.SIGSTOP, Sys.send msg_ok_paused],
          closed := false } := by
    have hb : trim_line (recv_buf raw_pause) = kw_pause := by decide
    rw [hb, handle_command_pause]
    simp [pass_pause, pause_song, world_at_1030]
  have he : current_elapsed_seconds
      { playlist := [['a', '.', 'm', 'p', '3']], player_pid := 77, current_song := 0,
        state := PlayState.STATE_PAUSED, play_start := 1020, paused_since := 1030,
        paused_accum := 0, current_duration := 200 } 1030 = 10 := by
    norm_num [current_elapsed_seconds, difftime]
  rw [pass_readable_not_due pass_pause raw_pause _ rfl (by decide) rfl (by rw [hc])
    (by rw [hc]; exact not_due_of_not_playing _ _ (by decide))]
  rw [hc]
  simp only [pass_pause]
  rw [he]
  simp [status_trace, stname, Globals.song_count, Globals.song]

/-- A status tick of a session still in its initial state reports `STOPPED`. -/
theorem pass_tick_initial (pl : List CStr) :
    pass_tick.run (init pl)
      = { globals := init pl, trace := [Sys.send_status "STOPPED".toList 0 0],
          closed := false } := by
  rw [pass_timeout_not_due pass_tick (init pl) rfl rfl
    (not_due_of_not_playing _ _ (by simp [init]))]
  simp [status_trace, stname, init, current_elapsed_seconds]

/-- The `add b.mp3` pass of the example on the initial globals. -/
theorem pass_add_b_result :
    pass_add_b.run (init [['a', '.', 'm', 'p', '3']])
      = { globals := init [['a', '.', 'm', 'p', '3'], ['b', '.', 'm', 'p', '3']],
          trace := [Sys.save_playlist [['a', '.', 'm', 'p', '3'], ['b', '.', 'm', 'p', '3']],
            Sys.send msg_ok_added, Sys.send_status "STOPPED".toList 0 0],
          closed := false } := by
  have hc : handle_command pass_add_b.wc (init [['a', '.', 'm', 'p', '3']])
        (trim_line (recv_buf raw_add_b))
      = { globals := init [['a', '.', 'm', 'p', '3'], ['b', '.', 'm', 'p', '3']],
          trace := [Sys.save_playlist [['a', '.', 'm', 'p', '3'], ['b', '.', 'm', 'p', '3']],
            Sys.send msg_ok_added],
          closed := false } := by
    have hb : trim_line (recv_buf raw_add_b) = kw_add ++ ['b', '.', 'm', 'p', '3'] := by decide
    rw [hb, handle_command_add]
    simp [init, MAX_SONGS]
  rw [pass_readable_not_due pass_add_b raw_add_b _ rfl (by decide) rfl (by rw [hc])
    (by rw [hc]; exact not_due_of_not_playing _ _ (by simp [init]))]
  rw [hc]
  simp [status_trace, stname, init, current_elapsed_seconds]

/-- The `list` pass of the example on the initial globals. -/
theorem pass_list_initial :
    pass_list.run (init [['a', '.', 'm', 'p', '3']])
      = { globals := init [['a', '.', 'm', 'p', '3']],
          trace := [Sys.send "1. a.mp3\n".toList, Sys.send_status "STOPPED".toList 0 0],
          closed := false } := by
  have hc : handle_command pass_list.wc (init [['a', '.', 'm', 'p', '3']])
        (trim_line (recv_buf raw_list))
      = { globals := init [['a', '.', 'm', 'p', '3']],
          trace := [Sys.send "1. a.mp3\n".toList], closed := false } := by
    have hb : trim_line (recv_buf raw_list) = kw_list ++ [] := by decide
    rw [hb, handle_command_list]
    have hl : list_reply (init [['a', '.', 'm', 'p', '3']]).playlist = "1. a.mp3\n".toList := by
      decide
    rw [hl]
  rw [pass_readable_not_due pass_list raw_list _ rfl (by decide) rfl (by rw [hc])
    (by rw [hc]; exact not_due_of_not_playing _ _ (by simp [init]))]
  rw [hc]
  simp [status_trace, stname, init, current_elapsed_seconds]

/-- A pass of a session that exists replaces its globals. -/
theorem session_pass_some (d : Daemon) (i : Nat) (p : Pass) (g : Globals)
    (h : d.sessions[i]? = some g) :
    session_pass i p d = { d with sessions := d.sessions.set i (p.run g).globals } := by
  unfold session_pass
  rw [h]

/-- A pass of a session that does not exist changes nothing. -/
theorem session_pass_none (d : Daemon) (i : Nat) (p : Pass) (h : d.sessions[i]? = none) :
    session_pass i p d = d := by
  unfold session_pass
  rw [h]

/-- C12 as stated fails: with two sessions connected to the daemon started on
`[a.mp3]`, after the first session has handled `play` and then `pause` its own
phase is paused, yet the next status tick of the second session reports
`STOPPED 0 0`; and after the first session has handled `add b.mp3` its own
playlist holds both tracks, yet the reply to `list` in the second session is
the single line `1. a.mp3`. -/
theorem second_session_sees_no_change :
    Option.map (fun g => g.state)
        (session_pass 0 pass_pause (session_pass 0 pass_play two_sessions)).sessions[0]?
      = some PlayState.STATE_PAUSED ∧
    session_trace 1 pass_tick (session_pass 0 pass_pause (session_pass 0 pass_play two_sessions))
      = [Sys.send_status "STOPPED".toList 0 0] ∧
    Option.map (fun g => g.playlist) (session_pass 0 pass_add_b two_sessions).sessions[0]?
      = some [['a', '.', 'm', 'p', '3'], ['b', '.', 'm', 'p', '3']] ∧
    session_trace 1 pass_list (session_pass 0 pass_add_b two_sessions)
      = [Sys.send "1. a.mp3\n".toList, Sys.send_status "STOPPED".toList 0 0] := by
  have h1 : session_pass 0 pass_play two_sessions
      = { acceptor := init [['a', '.', 'm', 'p', '3']],
          sessions :=
            [{ playlist := [['a', '.', 'm', 'p', '3']], player_pid := 77, current_song := 0,
               state := PlayState.STATE_PLAYING, play_start := 1020, paused_since := 0,
               paused_accum := 0, current_duration := 200 },
             init [['a', '.', 'm', 'p', '3']]] } := by
    rw [two_sessions_eq]
    simp [session_pass, pass_play_result]
  have h2 : session_pass 0 pass_pause (session_pass 0 pass_play two_sessions)
      = { acceptor := init [['a', '.', 'm', 'p', '3']],
          sessions :=
            [{ playlist := [['a', '.', 'm', 'p', '3']], player_pid := 77, current_song := 0,
               state := PlayState.STATE_PAUSED, play_start := 1020, paused_since := 1030,
               paused_accum := 0, current_duration := 200 },
             init [['a', '.', 'm', 'p', '3']]] } := by
    rw [h1]
    simp [session_pass, pass_pause_result]
  have h3 : session_pass 0 pass_add_b two_sessions
      = { acceptor := init [['a', '.', 'm', 'p', '3']],
          sessions :=
            [init [['a', '.', 'm', 'p', '3'], ['b', '.', 'm', 'p', '3']],
             init [['a', '.', 'm', 'p', '3']]] } := by
    rw [two_sessions_eq]
    simp [session_pass, pass_add_b_result]
  refine ⟨?_, ?_, ?_, ?_⟩
  · rw [h2]
    simp
  · rw [h2]
    simp [session_trace, pass_tick_initial]
  · rw [h3]
    simp [init]
  · rw [h3]
    simp [session_trace, pass_list_initial]

/-! ## The `add` command as received -/

/-- What the dispatch sees of a received `add <path>` line: the word, its blank
and the first `ADD_PATH_MAX` bytes of a clean path, whatever follows the newline. -/
theorem recv_trim_add (p rest : List Char) (hclean : clean_path p) :
    trim_line (recv_buf (kw_add ++ p ++ '\n' :: rest)) = kw_add ++ p.take ADD_PATH_MAX := by
  have hnul : ∀ c ∈ kw_add ++ p.take 507, (c != Char.ofNat 0) = true := by
    intro c hc
    have hk : ∀ d ∈ kw_add, (d != Char.ofNat 0) = true := by decide
    rcases List.mem_append.mp hc with h | h
    · exact hk c h
    · have := (hclean c (List.mem_of_mem_take h)).2.2
      simpa using this
  have hcrlf : ∀ c ∈ kw_add ++ p.take 507, (c != '\r' && c != '\n') = true := by
    intro c hc
    have hk : ∀ d ∈ kw_add, (d != '\r' && d != '\n') = true := by decide
    rcases List.mem_append.mp hc with h | h
    · exact hk c h
    · have := hclean c (List.mem_of_mem_take h)
      simp [this.1, this.2.1]
  have htake : (kw_add ++ p ++ '\n' :: rest).take 511
      = (kw_add ++ p.take 507) ++ ('\n' :: rest).take (507 - p.length) := by
    rw [List.append_assoc, List.take_append_eq_append_take, List.take_append_eq_append_take]
    simp [kw_add]
  have htail : ∀ k : Nat,
      ((('\n' :: rest).take k).takeWhile (fun c => c != Char.ofNat 0)).takeWhile
        (fun c => c != '\r' && c != '\n') = [] := by
    intro k
    cases k with
    | zero => simp
    | succ k =>
      have h0 : ('\n' != Char.ofNat 0) = true := by decide
      simp [List.take_succ_cons, List.takeWhile_cons, h0]
  unfold trim_line recv_buf MAX_LEN ADD_PATH_MAX MAX_LEN
  rw [show 512 - 1 = 511 from rfl, show 511 - 4 = 507 from rfl, htake,
    List.takeWhile_append_of_pos hnul, List.takeWhile_append_of_pos hcrlf, htail,
    List.append_nil]

theorem play_song_playlist (w : World) (g : Globals) (i : Int) :
    (play_song w g i).1.playlist = g.playlist := by
  by_cases hv : i < 0 ∨ i ≥ g.song_count
  · simp only [play_song, hv, if_true]
  · rw [play_song_globals w g i (by omega) (by omega)]
    split_ifs <;> rfl

theorem status_tick_playlist (t : Int) (sg : Bool) (w : World) (g : Globals) :
    (status_tick t sg w g).globals.playlist = g.playlist := by
  have hk := (kill_player_frame g).1
  unfold status_tick
  split_ifs
  · rfl
  · simp only
    unfold auto_advance
    dsimp only
    split_ifs
    · rw [play_song_playlist, hk]
    · simp only [stop_song]
      rw [(kill_player_frame _).1, hk]
    · rfl
    · rfl

/-- C4 as stated fails: a pass that receives `add `, the 600 bytes of
`long_path` and a newline on the empty initial playlist answers `OK Song added`
but appends `cut_path`, the first 507 bytes of the path, which is not the path. -/
theorem long_path_is_cut :
    long_path.length = 600 ∧ cut_path.length = 507 ∧ clean_path long_path ∧
    (pass_add_long.run (init [])).globals.playlist = [cut_path] ∧
    (pass_add_long.run (init [])).globals.playlist ≠ (init []).playlist ++ [long_path] ∧
    (pass_add_long.run (init [])).trace
      = [Sys.save_playlist [cut_path], Sys.send msg_ok_added,
          Sys.send_status "STOPPED".toList 0 0] := by
  have hl1 : long_path.length = 600 := List.length_replicate 600 'a'
  have hl2 : cut_path.length = 507 := List.length_replicate 507 'a'
  have hclean : clean_path long_path := by
    intro c hc
    rw [List.eq_of_mem_replicate hc]
    decide
  have htk : long_path.take ADD_PATH_MAX = cut_path := by
    unfold long_path cut_path
    rw [List.take_replicate]
    rfl
  have hb : trim_line (recv_buf (kw_add ++ long_path ++ ['\n'])) = kw_add ++ cut_path := by
    rw [recv_trim_add long_path [] hclean, htk]
  have hc : handle_command pass_add_long.wc (init [])
        (trim_line (recv_buf (kw_add ++ long_path ++ ['\n'])))
      = { globals := init [cut_path],
          trace := [Sys.save_playlist [cut_path], Sys.send msg_ok_added],
          closed := false } := by
    rw [hb, handle_command_add]
    simp [init, MAX_SONGS]
  have hraw : (kw_add ++ long_path ++ ['\n']).length ≠ 0 := by
    rw [List.length_append, List.length_append, hl1]
    decide
  have hrun := pass_readable_not_due pass_add_long (kw_add ++ long_path ++ ['\n']) (init [])
    rfl hraw rfl (by rw [hc])
    (by rw [hc]; exact not_due_of_not_playing _ _ (by simp [init]))
  rw [hc] at hrun
  rw [hrun]
  refine ⟨hl1, hl2, hclean, by simp [init], ?_, ?_⟩
  · intro h
    have h2 : [cut_path] = [long_path] := by simpa [init] using h
    have h3 : cut_path = long_path := List.head_eq_of_cons_eq h2
    have h4 := congrArg List.length h3
    rw [hl1, hl2] at h4
    exact absurd h4 (by decide)
  · simp [status_trace, stname, init, current_elapsed_seconds]

/-- C4, amended: for a path `p` of at most 507 bytes without carriage return,
line feed or NUL, handling the received line `add p` on a playlist of fewer than
100 entries appends `p` at the end, the earlier entries and every other global
as they were, rewrites the playlist file and answers `OK Song added`; on a
playlist of 100 entries (the capacity) it changes no global, writes nothing and
answers `ERR Playlist full`. The playlist is the same at the end of the pass. -/
theorem add_line_appends_or_rejects :
    (∀ (w : World) (g : Globals) (p rest : List Char), clean_path p →
      p.length ≤ ADD_PATH_MAX →
        handle_command w g (trim_line (recv_buf (kw_add ++ p ++ '\n' :: rest))) =
          if g.playlist.length < MAX_SONGS then
            { globals := { g with playlist := g.playlist ++ [p] },
              trace := [Sys.save_playlist (g.playlist ++ [p]), Sys.send msg_ok_added],
              closed := false }
          else { globals := g, trace := [Sys.send msg_full], closed := false }) ∧
    (∀ (q : Pass) (g : Globals) (p rest : List Char), clean_path p →
      p.length ≤ ADD_PATH_MAX → q.inp = Input.readable (kw_add ++ p ++ '\n' :: rest) →
        (q.run g).globals.playlist =
          if g.playlist.length < MAX_SONGS then g.playlist ++ [p] else g.playlist) := by
  have hcmd : ∀ (w : World) (g : Globals) (p rest : List Char), clean_path p →
      p.length ≤ ADD_PATH_MAX →
        handle_command w g (trim_line (recv_buf (kw_add ++ p ++ '\n' :: rest))) =
          if g.playlist.length < MAX_SONGS then
            { globals := { g with playlist := g.playlist ++ [p] },
              trace := [Sys.save_playlist (g.playlist ++ [p]), Sys.send msg_ok_added],
              closed := false }
          else { globals := g, trace := [Sys.send msg_full], closed := false } := by
    intro w g p rest hclean hlen
    rw [recv_trim_add p rest hclean, List.take_of_length_le hlen, handle_command_add]
  refine ⟨hcmd, ?_⟩
  intro q g p rest hclean hlen hinp
  have hraw : ¬ (kw_add ++ p ++ '\n' :: rest).length = 0 := by simp [kw_add]
  unfold Pass.run handle_client_pass
  rw [hinp]
  simp only [hraw, if_false]
  rw [hcmd q.wc g p rest hclean hlen]
  by_cases hfull : g.playlist.length < MAX_SONGS
  · simp only [hfull, if_true, Bool.false_eq_true, if_false]
    rw [status_tick_playlist]
  · simp only [hfull, if_false, Bool.false_eq_true]
    rw [status_tick_playlist]

/-- Instance of C4, amended: the received line `add b.mp3` on the initial playlist
`[a.mp3]` appends `b.mp3`. -/
theorem add_line_appends_or_rejects_witness :
    handle_command world_at_1030 (init [['a', '.', 'm', 'p', '3']])
        (trim_line (recv_buf raw_add_b))
      = { globals :=
            { init [['a', '.', 'm', 'p', '3']] with
              playlist := [['a', '.', 'm', 'p', '3']] ++ [['b', '.', 'm', 'p', '3']] },
          trace := [Sys.save_playlist ([['a', '.', 'm', 'p', '3']] ++ [['b', '.', 'm', 'p', '3']]),
            Sys.send msg_ok_added],
          closed := false } :=
  (add_line_appends_or_rejects.1 world_at_1030 (init [['a', '.', 'm', 'p', '3']])
    ['b', '.', 'm', 'p', '3'] [] (by unfold clean_path; decide) (by decide)).trans
    (by simp [init, MAX_SONGS])

/-! ## Remainders and playlist positions -/

theorem accesses_ok_iff (l : List Access) : accesses_ok l ↔ ∀ a ∈ l, a.ok := by
  induction l with
  | nil => simp [accesses_ok]
  | cons a rest ih => simp [accesses_ok, ih]

theorem accesses_ok_append (l1 l2 : List Access) (h1 : accesses_ok l1) (h2 : accesses_ok l2) :
    accesses_ok (l1 ++ l2) := by
  rw [accesses_ok_iff] at *
  intro a ha
  rcases List.mem_append.mp ha with h | h
  · exact h1 a h
  · exact h2 a h

theorem loop_reads_ok (n : Nat) : accesses_ok (loop_reads n) := by
  rw [accesses_ok_iff]
  intro a ha
  unfold loop_reads at ha
  obtain ⟨i, hi, rfl⟩ := List.mem_map.mp ha
  have hlt : i < n := List.mem_range.mp hi
  exact ⟨Int.ofNat_nonneg i, by exact_mod_cast hlt⟩

theorem load_playlist_accesses_ok (file : Option (List CStr)) :
    accesses_ok (load_playlist_accesses file) := by
  cases file with
  | none => simp [load_playlist_accesses, accesses_ok]
  | some lines =>
    rw [accesses_ok_iff]
    intro a ha
    unfold load_playlist_accesses at ha
    obtain ⟨i, hi, rfl⟩ := List.mem_map.mp ha
    have hlt : i < min lines.length MAX_SONGS := List.mem_range.mp hi
    have hle : min lines.length MAX_SONGS ≤ MAX_SONGS := min_le_right _ _
    exact ⟨Int.ofNat_nonneg i, by exact_mod_cast lt_of_lt_of_le hlt hle⟩

theorem play_song_accesses_ok (w : World) (g : Globals) (i : Int) :
    accesses_ok (play_song_accesses w g i) := by
  unfold play_song_accesses
  by_cases hv : i < 0 ∨ i ≥ g.song_count
  · simp [hv, accesses_ok]
  · have hok : (Access.index i g.song_count).ok := ⟨by omega, by omega⟩
    simp only [hv, if_false]
    split_ifs
    · exact ⟨hok, trivial⟩
    · exact ⟨hok, hok, trivial⟩

/-- The index `(current_song + 1) % song_count` is computed from a divisor other
than 0 and is a position of the playlist, given the bounds on the state. -/
theorem next_index_accesses_ok (w : World) (g : Globals) (h : index_inv g)
    (hpos : 0 < g.song_count) :
    accesses_ok
      (Access.modulo (g.current_song + 1) g.song_count ::
        Access.index (Int.tmod (g.current_song + 1) g.song_count) g.song_count ::
          play_song_accesses w g (Int.tmod (g.current_song + 1) g.song_count)) := by
  obtain ⟨_, hge, hlt⟩ :=
    next_index_valid g.current_song g.song_count (index_inv_current_ge g h) hpos
  refine ⟨?_, ⟨hge, hlt⟩, play_song_accesses_ok w g _⟩
  show g.song_count ≠ 0
  omega

theorem next_song_accesses_ok (w : World) (g : Globals) (h : index_inv g) :
    accesses_ok (next_song_accesses w g) := by
  unfold next_song_accesses
  split_ifs with hz
  · trivial
  · have h0 : 0 ≤ g.song_count := by
      unfold Globals.song_count
      exact Int.ofNat_nonneg _
    exact next_index_accesses_ok w g h (by omega)

theorem handle_command_accesses_ok (w : World) (g : Globals) (buf : CStr)
    (h : index_inv g) : accesses_ok (handle_command_accesses w g buf) := by
  unfold handle_command_accesses
  split_ifs with h1 h2 h3 h4 h5 h6 h7 h8
  · exact play_song_accesses_ok w g 0
  · trivial
  · trivial
  · trivial
  · exact next_song_accesses_ok w g h
  · refine ⟨⟨?_, h7⟩, loop_reads_ok _⟩
    unfold Globals.song_count
    exact Int.ofNat_nonneg _
  · trivial
  · exact loop_reads_ok _
  · trivial

theorem status_accesses_ok (g : Globals) : accesses_ok (status_accesses g) := by
  unfold status_accesses
  split_ifs with h1 h2
  · obtain ⟨_, hge, hlt⟩ :=
      next_index_valid g.current_song g.song_count (by omega) (by omega)
    refine ⟨h1, ?_, ⟨hge, hlt⟩, trivial⟩
    show g.song_count ≠ 0
    omega
  · exact ⟨h1, trivial⟩
  · trivial

theorem auto_advance_accesses_ok (w : World) (g : Globals) (e : ℚ) (h : index_inv g) :
    accesses_ok (auto_advance_accesses w g e) := by
  obtain ⟨hp, hc, _, _⟩ := kill_player_frame g
  have hk : index_inv (kill_player g).1 := index_inv_of_frame g _ h hp hc
  unfold auto_advance_accesses
  split_ifs with h1 h2 h3
  · exact next_index_accesses_ok w _ hk h3
  · trivial
  · trivial
  · trivial

theorem status_tick_accesses_ok (t : Int) (sg : Bool) (w : World) (g : Globals)
    (h : index_inv g) : accesses_ok (status_tick_accesses t sg w g) := by
  unfold status_tick_accesses
  apply accesses_ok_append _ _ (status_accesses_ok g)
  split_ifs
  · trivial
  · exact auto_advance_accesses_ok w g _ h

theorem pass_accesses_ok (p : Pass) (g : Globals) (h : index_inv g) :
    accesses_ok (p.accesses g) := by
  unfold Pass.accesses
  cases p.inp with
  | timeout => exact status_tick_accesses_ok _ _ _ _ h
  | eintr => trivial
  | failed => trivial
  | readable raw =>
    simp only
    split_ifs
    · trivial
    · exact accesses_ok_append _ _ (handle_command_accesses_ok _ _ _ h) trivial
    · exact accesses_ok_append _ _ (handle_command_accesses_ok _ _ _ h)
        (status_tick_accesses_ok _ _ _ _ (handle_command_index_inv _ _ _ h))

/-- C13: in every state a session reaches from startup (the playlist as
`load_playlist` read it, `current_song = -1`) by any passes through its loop,
whatever is received and whatever the system answers, `song_count` is within
`0..100` and `current_song` is `-1` or a position of the playlist; and in the
pass that follows, whatever it is, every remainder is taken by a divisor other
than 0 and every playlist index computed, read or written (by `play_song`,
`next_song`, the automatic advance, the `PLAYING` and `NEXT` status lines, the
`add` and `list` branches) is within the positions that exist; so are the
positions `load_playlist` wrote at startup. -/
theorem reachable_indices_in_bounds (file : Option (List CStr)) (passes : List Pass)
    (p : Pass) :
    0 ≤ (run_passes (init (load_playlist file)) passes).song_count ∧
    (run_passes (init (load_playlist file)) passes).song_count ≤ 100 ∧
    ((run_passes (init (load_playlist file)) passes).current_song = -1 ∨
      (0 ≤ (run_passes (init (load_playlist file)) passes).current_song ∧
        (run_passes (init (load_playlist file)) passes).current_song
          < (run_passes (init (load_playlist file)) passes).song_count)) ∧
    accesses_ok (load_playlist_accesses file) ∧
    accesses_ok (p.accesses (run_passes (init (load_playlist file)) passes)) := by
  have h : index_inv (run_passes (init (load_playlist file)) passes) :=
    run_passes_keeps index_inv (fun _ => True) (fun g p hg _ => pass_index_inv g p hg)
      passes _ (init_index_inv file) (fun _ _ => trivial)
  refine ⟨?_, ?_, h.2, load_playlist_accesses_ok file, pass_accesses_ok p _ h⟩
  · unfold Globals.song_count
    exact Int.ofNat_nonneg _
  · have := h.1
    unfold MAX_SONGS at this
    unfold Globals.song_count
    exact_mod_cast this

/-! ## What another session reports -/

/-- A pass of one session process leaves the globals of every other one alone. -/
theorem session_pass_other (d : Daemon) (i j : Nat) (p : Pass) (hij : i ≠ j) :
    (session_pass i p d).sessions[j]? = d.sessions[j]? := by
  unfold session_pass
  cases d.sessions[i]? with
  | none => rfl
  | some g => exact List.getElem?_set_ne hij

theorem session_passes_other (i j : Nat) (hij : i ≠ j) (ps : List Pass) :
    ∀ d : Daemon, (session_passes i ps d).sessions[j]? = d.sessions[j]? := by
  induction ps with
  | nil =>
    intro d
    rfl
  | cons p rest ih =>
    intro d
    simp only [session_passes]
    rw [ih, session_pass_other d i j p hij]

/-- The second of two accepted connections starts from the globals of startup. -/
theorem second_session_initial (file : Option (List CStr)) (f1 f2 : Int)
    (h1 : 0 < f1) (h2 : 0 < f2) :
    (accept_connection f2 (accept_connection f1 (startup file))).sessions[1]?
      = some (init (load_playlist file)) := by
  simp [accept_connection, startup, h1, h2]

/-- The second half of a loop pass on the globals of startup sends the status
line `STOPPED 0 0` and nothing else, and changes nothing. -/
theorem status_tick_initial (t : Int) (sg : Bool) (w : World) (pl : List CStr) :
    (status_tick t sg w (init pl)).trace = [Sys.send_status "STOPPED".toList 0 0] ∧
    (status_tick t sg w (init pl)).globals = init pl := by
  have hnot : ¬ advance_due (init pl) (current_elapsed_seconds (init pl) t) :=
    not_due_of_not_playing _ _ (by simp [init])
  have hst : status_trace (init pl) (current_elapsed_seconds (init pl) t)
      = [Sys.send_status "STOPPED".toList 0 0] := by
    simp [status_trace, stname, init, current_elapsed_seconds]
  unfold status_tick
  cases sg with
  | true => simp [hst]
  | false => simp [hst, auto_advance_not_due w _ _ hnot]

/-- C12, amended: the globals are private to each session process. With two
connections accepted after startup, whatever passes the first session has made
(its `pause`, its `add`, any commands and ticks under any answers of the
system), the second session, which has handled nothing itself, sends in its
next status tick the line `STOPPED 0 0` and no `PLAYING` line, and answers
`list` with the listing of the playlist as `load_playlist` read it at startup:
nothing the first session's handler changed is visible to the second's. -/
theorem other_session_reports_own_state (file : Option (List CStr)) (f1 f2 : Int)
    (ps : List Pass) (q : Pass) (h1 : 0 < f1) (h2 : 0 < f2) :
    (q.inp = Input.timeout →
      session_trace 1 q
          (session_passes 0 ps (accept_connection f2 (accept_connection f1 (startup file))))
        = [Sys.send_status "STOPPED".toList 0 0]) ∧
    (q.inp = Input.readable raw_list →
      session_trace 1 q
          (session_passes 0 ps (accept_connection f2 (accept_connection f1 (startup file))))
        = [Sys.send (list_reply (load_playlist file)),
            Sys.send_status "STOPPED".toList 0 0]) := by
  have hg : (session_passes 0 ps
        (accept_connection f2 (accept_connection f1 (startup file)))).sessions[1]?
      = some (init (load_playlist file)) := by
    rw [session_passes_other 0 1 (by decide) ps, second_session_initial file f1 f2 h1 h2]
  constructor
  · intro hq
    unfold session_trace
    rw [hg]
    simp only [Pass.run, handle_client_pass, hq]
    exact (status_tick_initial _ _ _ _).1
  · intro hq
    have hb : trim_line (recv_buf raw_list) = kw_list ++ [] := by decide
    have hc := handle_command_list q.wc (init (load_playlist file)) []
    unfold session_trace
    rw [hg]
    simp only [Pass.run, handle_client_pass, hq]
    rw [hb, hc]
    have hraw : ¬ raw_list.length = 0 := by decide
    simp only [hraw, if_false, Bool.false_eq_true]
    rw [(status_tick_initial _ _ _ _).1]
    rfl

/-- Instance of C12, amended: after the first session of the example daemon has
handled `play` and `pause`, the status tick of the second session sends
`STOPPED 0 0`. -/
theorem other_session_reports_own_state_witness :
    session_trace 1 pass_tick
        (session_passes 0 [pass_play, pass_pause]
          (accept_connection 501
            (accept_connection 500 (startup (some [['a', '.', 'm', 'p', '3', '\n']])))))
      = [Sys.send_status "STOPPED".toList 0 0] :=
  (other_session_reports_own_state (some [['a', '.', 'm', 'p', '3', '\n']]) 500 501
    [pass_play, pass_pause] pass_tick (by decide) (by decide)).1 rfl

end Maestro
